import Mathlib

/-!
Verification development for `app_rtsp_sip.c` (RTSP/SIP endpoint application).

The definitions below are a shallow embedding of the C source: raw message
buffers become `List Char`, C string scanning loops become structural
recursions (bounded loops carry an explicit budget argument mirroring the
C bound, e.g. `MAX_TOKEN - 1 = 511`), and functions that can fail return
`Option`/error codes exactly as the C does.  External Asterisk library
routines that the module calls (`ast_md5_hash`, `ast_base64encode`) are
taken as function parameters, since their code is not part of this module.
-/

set_option maxRecDepth 10000

/-- Character strings are modelled as lists of characters (C `char*` without
the terminating NUL; the NUL-termination conventions of the C library
functions are reproduced in each scanning function). -/
abbrev Str := List Char

/-- Model of C `isspace` for the ASCII range used by the source
(space, \t, \n, \v, \f, \r). -/
def cIsSpace (c : Char) : Bool :=
  c.toNat = 32 || c.toNat = 9 || c.toNat = 10 || c.toNat = 11 || c.toNat = 12 || c.toNat = 13

/-- ASCII alphanumeric characters; used to state well-formedness side
conditions on tokens fed to the parsers (scheme names, parameter keys and
values). -/
def alnumB (c : Char) : Bool :=
  (65 ≤ c.toNat && c.toNat ≤ 90) || (97 ≤ c.toNat && c.toNat ≤ 122) ||
    (48 ≤ c.toNat && c.toNat ≤ 57)

/-- A string of ASCII alphanumeric characters. -/
def simpleStr (s : Str) : Bool := s.all alnumB

/-- Lower-casing of one ASCII character, as the C `strcasecmp` family does. -/
def lowC (c : Char) : Char :=
  if 65 ≤ c.toNat ∧ c.toNat ≤ 90 then Char.ofNat (c.toNat + 32) else c

/-- Read a character at an index, with the C convention that reading past the
end of the buffer sees the NUL terminator. -/
def getDC (s : Str) (i : Nat) : Char := s.getD i (Char.ofNat 0)

/-- Model of `strstr(buffer, "\r\n")`: split the buffer at the first CRLF,
returning the part before it and the part after it. -/
def findCRLF : Str → Option (Str × Str)
  | [] => none
  | c :: r =>
    if c = '\r' ∧ r.head? = some '\n' then some ([], r.tail)
    else (findCRLF r).map (fun p => (c :: p.1, p.2))

/-- Model of `strchr(line, ':')`: split at the first colon. -/
def splitColon : Str → Option (Str × Str)
  | [] => none
  | c :: r =>
    if c = ':' then some ([], r)
    else (splitColon r).map (fun p => (c :: p.1, p.2))

/-- Model of the C `trim_whitespace` in the source.  The C function advances a
local pointer over leading whitespace but writes the new terminator through
that advanced pointer, so from the caller's perspective only trailing
whitespace is removed (and an all-whitespace string is left unchanged). -/
def c_trim (s : Str) : Str :=
  let r := s.dropWhile cIsSpace
  if r = [] then s
  else s.takeWhile cIsSpace ++ (r.reverse.dropWhile cIsSpace).reverse

/-- Model of `get_trimmed_string`: a proper copy with both leading and
trailing whitespace removed. -/
def trimBoth (s : Str) : Str :=
  ((s.dropWhile cIsSpace).reverse.dropWhile cIsSpace).reverse

/-- One parsed header: `field_name` and `field_value` as stored in
`HeaderStruct`. -/
abbrev Hdr := Str × Str

/-- MAX_HEADERS from the source. -/
def MAX_HEADERS : Nat := 100

/-- MAX_HEADER_LINE from the source. -/
def MAX_HEADER_LINE : Nat := 1024

/-- MAX_TOKEN - 1 from the source: the copy budget of the token-scanning
loops (`i < MAX_TOKEN - 1` with `MAX_TOKEN = 512`). -/
def TOKBUDGET : Nat := 511

/-- The line-folding scan of `parse_headers`: starting at `line_start`, find
the CRLF ending the (possibly folded) header line.  A CRLF followed by a
space or tab extends the line (`obs-fold`); the folded span keeps its
embedded CR LF characters, exactly as the C code copies the raw span
`[line_start, line_end)`.  `none` models the C case where no CRLF is found
(`line_end == NULL`).  The budget argument is the buffer length; each fold
step consumes at least two characters. -/
def scanLineF : Nat → Str → Option (Str × Str)
  | 0, _ => none
  | fuel + 1, buf =>
    match findCRLF buf with
    | none => none
    | some (seg, rest) =>
      match rest with
      | c :: _ =>
        if c = ' ' ∨ c = '\t' then
          match scanLineF fuel rest with
          | none => none
          | some (cont, rest2) => some (seg ++ '\r' :: '\n' :: cont, rest2)
        else some (seg, rest)
      | [] => some (seg, rest)

/-- Wrapper choosing a sufficient budget. -/
def scanLine (buf : Str) : Option (Str × Str) := scanLineF (buf.length + 1) buf

/-- The header-collection loop of `parse_headers`.  `remaining` counts down
from `MAX_HEADERS` (the C loop condition `count < MAX_HEADERS`).  A `none`
result models the C return value `-1`; `some hdrs` models return value `0`
with the collected header list.  Note that running out of `remaining`
(too many header lines) exits the loop with success, exactly as the C
`while` condition does. -/
def parse_headersLoop : Str → Nat → List Hdr → Option (List Hdr)
  | [], _, acc => some acc.reverse
  | _ :: _, 0, acc => some acc.reverse
  | buf, remaining + 1, acc =>
    match scanLine buf with
    | none => some acc.reverse
    | some (line, rest) =>
      if line.length = 0 then some acc.reverse
      else if MAX_HEADER_LINE ≤ line.length then none
      else
        match splitColon line with
        | none => none
        | some (n, v) => parse_headersLoop rest remaining ((c_trim n, c_trim v) :: acc)

/-- Model of `parse_headers`. -/
def parse_headers (buf : Str) : Option (List Hdr) := parse_headersLoop buf MAX_HEADERS []

/-- Model of `parse_message`: find the CRLF ending the start line and return
the suffix where the headers begin (`none` models the `-1` error). -/
def parse_message (buffer : Str) : Option Str :=
  (findCRLF buffer).map (fun p => p.2)

/-- Bounded token scan: copy characters until the stop predicate holds, the
string ends, or the copy budget is exhausted (the C loops guard with
`i < MAX_TOKEN - 1`).  Returns the copied token and the remaining suffix. -/
def scanStop (stop : Char → Bool) : Nat → Str → Str × Str
  | _, [] => ([], [])
  | 0, l => ([], l)
  | b + 1, c :: r =>
    if stop c then ([], c :: r)
    else
      let t := scanStop stop b r
      (c :: t.1, t.2)

/-- Model of `parse_auth_scheme`: the scheme token runs to the first
whitespace (or the copy budget), then all following whitespace is
skipped. -/
def parse_auth_scheme (s : Str) : Str × Str :=
  let p := scanStop cIsSpace TOKBUDGET s
  (p.1, p.2.dropWhile cIsSpace)

/-- Model of `is_token68`. -/
def is_token68 (s : Str) : Bool :=
  s.all (fun c => alnumB c || c = '+' || c = '/' || c = '=')

/-- Stop set of the parameter-key scan in `parse_auth_params`
(`*p != '=' && *p != ' '`). -/
def keyStop (c : Char) : Bool := c = '=' || c = ' '

/-- Stop set of the bare-value scan in `parse_auth_params` (`*p != ','`). -/
def valStop (c : Char) : Bool := c = ','

/-- The quoted-value scan of `parse_auth_params`: consume characters after the
opening quote until an unescaped quote (the C code checks `*(p-1) != '\\'`,
so the scan carries the previous character; initially that is the opening
quote itself). -/
def scanQ : Nat → Char → Str → Str × Str
  | 0, _, l => ([], l)
  | _, _, [] => ([], [])
  | b + 1, prev, c :: r =>
    if c = '"' ∧ prev ≠ '\\' then ([], c :: r)
    else
      let t := scanQ b c r
      (c :: t.1, t.2)

/-- Quoted value: scan after the opening quote, then skip the closing quote
if present (`if (*p == '"') p++`). -/
def scanQuoted (s : Str) : Str × Str :=
  let p := scanQ TOKBUDGET '"' s
  (p.1, match p.2 with
        | '"' :: r => r
        | r => r)

/-- The parameter loop of `parse_auth_params`.  Each iteration skips
whitespace and commas, scans a key, and, if the key is followed by `=`,
scans a (quoted or bare) value; a key not followed by `=` is the start of a
new authentication scheme: the loop stops and returns the suffix starting
at that key (`*more_auths = p - strlen(key)`), which is the skipped
position `s0`.  The fuel is the string length plus one; every iteration
that recurses consumes at least the `=` character. -/
def parse_auth_paramsLoop : Nat → Str → List (Str × Str) → List (Str × Str) × Option Str
  | 0, _, acc => (acc.reverse, none)
  | _, [], acc => (acc.reverse, none)
  | fuel + 1, s, acc =>
    let s0 := s.dropWhile (fun c => cIsSpace c || c = ',')
    let kp := scanStop keyStop TOKBUDGET s0
    match kp.2 with
    | '=' :: r1 =>
      let vp := match r1 with
                | '"' :: r2 => scanQuoted r2
                | _ => scanStop valStop TOKBUDGET r1
      parse_auth_paramsLoop fuel vp.2 ((kp.1, vp.1) :: acc)
    | _ => (acc.reverse, some s0)

/-- Model of `parse_auth_params`: key/value list plus the optional start of a
further authentication scheme found in the same header value. -/
def parse_auth_params (s : Str) : List (Str × Str) × Option Str :=
  parse_auth_paramsLoop (s.length + 1) s []

/-- The do/while challenge loop inside `CheckAuthScheme`, operating on one
(whitespace-trimmed) `WWW-Authenticate` header value.  `rc` is
`return_code` and `out` the caller-visible parameter array contents
(`auth_paramkey/auth_paramval` up to `*auth_paramcount`).  Note the exact
reproduction of the C behaviour: the empty/token68 branches overwrite the
output unconditionally, while the parameter branch overwrites it whenever
`return_code` is already `0` — i.e. also for challenges *after* the
matching one. -/
def processChal (target : Str) : Nat → Str → Int → List (Str × Str) → Int × List (Str × Str)
  | 0, _, rc, out => (rc, out)
  | fuel + 1, s, rc, out =>
    let sp := parse_auth_scheme s
    let rc1 : Int := if sp.1 = target then 0 else rc
    match sp.2 with
    | [] => (rc1, [("None".data, "None".data)])
    | rest =>
      if is_token68 rest then (rc1, [("Token68".data, rest)])
      else
        let pp := parse_auth_params rest
        let out1 := if rc1 = 0 ∧ pp.1 ≠ [] then pp.1 else out
        match pp.2 with
        | some more => processChal target fuel more rc1 out1
        | none => (rc1, out1)

/-- Substring test, modelling `strstr(field_name, ...) != NULL`. -/
def startsW : Str → Str → Bool
  | _, [] => true
  | [], _ :: _ => false
  | c :: s, d :: p => c = d && startsW s p

def hasSubstr (s pat : Str) : Bool :=
  if startsW s pat then true
  else match s with
       | [] => false
       | _ :: r => hasSubstr r pat

/-- Model of `CheckAuthScheme`: parse the message, parse the headers, and run
the challenge loop over every header whose field name contains
`WWW-Authenticate`.  The result is the C return code together with the
parameter key/value list the caller receives. -/
def CheckAuthScheme (buffer : Str) (target : Str) : Int × List (Str × Str) :=
  match parse_message buffer with
  | none => (-1, [])
  | some hs =>
    match parse_headers hs with
    | none => (-2, [])
    | some hdrs =>
      hdrs.foldl
        (fun acc h =>
          if hasSubstr h.1 ("WWW-Authenticate".data) then
            let v := trimBoth h.2
            processChal target (v.length + 1) v acc.1 acc.2
          else acc)
        (-10, [])

/-- Last value stored under a key while walking the parameter list (the C
loops `strcpy` into the same field on every key match, so the last
occurrence wins). -/
def lastVal (key : Str) (ps : List (Str × Str)) : Str :=
  ps.foldl (fun a p => if p.1 = key then p.2 else a) []

/-- Collected `BasicAuthData`. -/
structure BasicAuthData where
  rx_realm : Str
deriving DecidableEq

/-- Model of `GetAuthSchemeBasic`. -/
def GetAuthSchemeBasic (buffer : Str) : Option BasicAuthData :=
  let r := CheckAuthScheme buffer ("Basic".data)
  if r.1 = 0 then some ⟨lastVal ("realm".data) r.2⟩ else none

/-- Collected `DigestAuthData`. -/
structure DigestAuthData where
  nonce : Str
  nc : Str
  cnonce : Str
  qop : Str
  uri : Str
  rx_realm : Str
  opaque' : Str
  algorithm : Str
deriving DecidableEq

/-- Model of `GetAuthSchemeDigest`. -/
def GetAuthSchemeDigest (buffer : Str) : Option DigestAuthData :=
  let r := CheckAuthScheme buffer ("Digest".data)
  if r.1 = 0 then
    some { nonce := lastVal ("nonce".data) r.2
           nc := lastVal ("nc".data) r.2
           cnonce := lastVal ("cnonce".data) r.2
           qop := lastVal ("qop".data) r.2
           uri := lastVal ("uri".data) r.2
           rx_realm := lastVal ("realm".data) r.2
           opaque' := lastVal ("opaque".data) r.2
           algorithm := lastVal ("algorithm".data) r.2 }
  else none

/-- Model of `auth_digest`.  The Asterisk hash routine `ast_md5_hash` is
external library code, so it is a parameter `md5`; the function first runs
the fixed self-test and returns `none` (C return `-1`) when it fails,
otherwise it stages the RFC2069 computation exactly as the C `sprintf`
sequence does: `H(H(user:realm:pass) : nonce : H(method:uri))`. -/
def auth_digest (md5 : Str → Str) (username passwd realm nonce uri method : Str) : Option Str :=
  if md5 "abcdefghijklmnopqrstuvwxyz".data = "c3fcd3d76192e4007dfb496cca67e13b".data then
    let A1 := username ++ ':' :: realm ++ ':' :: passwd
    let HA1 := md5 A1
    let A2 := method ++ ':' :: uri
    let HA2 := md5 A2
    let KD_ARGS := HA1 ++ ':' :: nonce ++ ':' :: HA2
    some (md5 KD_ARGS)
  else none

/-- Model of `RtspPlayerBasicAuthorization`: the Authorization header is
always produced (there is no realm comparison of any kind in this path);
`ast_base64encode` is external library code, a parameter. -/
def RtspPlayerBasicAuthorization (base64 : Str → Str) (username password : Str) : Str :=
  "Authorization: Basic ".data ++ base64 (username ++ ':' :: password)

/-- Helper rendering the common part of a Digest Authorization header. -/
def digestAuthBase (cfg_username rx_realm nonce uri digest_result : Str) : Str :=
  "Authorization: Digest username=\"".data ++ cfg_username ++
    "\", realm=\"".data ++ rx_realm ++ "\", nonce=\"".data ++ nonce ++
    "\", uri=\"".data ++ uri ++ "\", response=\"".data ++ digest_result ++
    "\", algorithm=MD5".data

/-- Model of `RtspPlayerDigestAuthorization`.  Returns the C return value
together with the authorization header text (`none` when not generated).
The realm guard is exactly the C test `strcmp(cfg_realm, rx_realm) != 0`.
When the MD5 self-test fails the C code logs and continues with an
uninitialised `digest_result` buffer; that unspecified value is modelled
as the empty string. -/
def RtspPlayerDigestAuthorization (md5 : Str → Str) (cfg_username cfg_password cfg_realm nonce : Str)
    (nc cnonce qop : Option Str) (uri rx_realm method : Str) (isSIP : Bool) :
    Int × Option Str :=
  if cfg_realm ≠ rx_realm then (-1, none)
  else
    let digest_result := (auth_digest md5 cfg_username cfg_password rx_realm nonce uri method).getD []
    let base := digestAuthBase cfg_username rx_realm nonce uri digest_result
    let hdr :=
      if isSIP then
        base ++ (match cnonce with | some c => ",cnonce\"".data ++ c ++ "\"".data | none => []) ++
          (match qop with | some q => ",qop\"".data ++ q ++ "\"".data | none => []) ++
          (match nc with | some n => ",nc\"".data ++ n ++ "\"".data | none => [])
      else
        base ++ (match cnonce with | some c => ", cnonce=\"".data ++ c ++ "\"".data | none => []) ++
          (match qop with | some q => ", qop=\"".data ++ q ++ "\"".data | none => []) ++
          (match nc with | some n => ", nc=\"".data ++ n ++ "\"".data | none => [])
    (1, some hdr)

/-- Outcome of the RTSP `DESCRIBE` 401 handler. -/
structure Rtsp401Result where
  authorization : Option Str
  resent : Bool
  ended : Bool
deriving DecidableEq

/-- Model of the `RTSP_DESCRIBE` 401 handling in `main_loop`: try Basic
first (authorization built from the configured username/password with no
realm check at all), else Digest — where the *received* realm
`digest_data.rx_realm` is passed both as the configured realm and as the
received realm to `RtspPlayerDigestAuthorization`, so that function's
realm comparison compares the received realm with itself. -/
def rtspDescribe401 (md5 base64 : Str → Str) (buffer username password hostport url : Str) :
    Rtsp401Result :=
  match GetAuthSchemeBasic buffer with
  | some _ =>
    { authorization := some (RtspPlayerBasicAuthorization base64 username password)
      resent := true, ended := false }
  | none =>
    match GetAuthSchemeDigest buffer with
    | some d =>
      let uri := "rtsp://".data ++ hostport ++ url
      let r := RtspPlayerDigestAuthorization md5 username password d.rx_realm d.nonce
                 none none none uri d.rx_realm "DESCRIBE".data false
      if 0 < r.1 then { authorization := r.2, resent := true, ended := false }
      else { authorization := r.2, resent := false, ended := true }
    | none => { authorization := none, resent := false, ended := true }

/-- Outcome of the SIP `INVITE` 401 handler. -/
structure Sip401Result where
  authorization : Option Str
  inviteResent : Bool
deriving DecidableEq

/-- Model of the `SIP_STATE_INVITE` 401 handling in `main_loop`: Basic is
only logged as unsupported; for Digest, `RtspPlayerDigestAuthorization`
is called with the *configured* `sip_realm` against the received realm,
and the INVITE is resent (capped by `cseqm[INVITE] == 3`) regardless of
the authorization result, whose return value is not checked. -/
def sipInvite401 (md5 : Str → Str) (buffer username password sip_realm ip : Str)
    (sip_port : Nat) (cseqInvite : Int) : Sip401Result :=
  match GetAuthSchemeBasic buffer with
  | some _ => { authorization := none, inviteResent := false }
  | none =>
    match GetAuthSchemeDigest buffer with
    | some d =>
      let uri := "sip:".data ++ username ++ '@' :: ip ++ ':' :: Nat.toDigits 10 sip_port
      let r := RtspPlayerDigestAuthorization md5 username password sip_realm d.nonce
                 none none none uri d.rx_realm "INVITE".data true
      { authorization := r.2, inviteResent := cseqInvite ≠ 3 }
    | none => { authorization := none, inviteResent := false }

/-- Case-insensitive "s starts with pat" with C NUL semantics: when the
haystack runs out before the needle, a NUL is compared against a needle
character and the match fails (`strncasecmp`). -/
def ciStarts : Str → Str → Bool
  | _, [] => true
  | [], _ :: _ => false
  | c :: s, d :: p => lowC c = lowC d && ciStarts s p

/-- Index of the first case-insensitive occurrence of `pat` in `s`
(`strcasestr`). -/
def ciFindIdx : Str → Str → Option Nat
  | s, pat =>
    if ciStarts s pat then some 0
    else match s with
         | [] => none
         | _ :: r => (ciFindIdx r pat).map (· + 1)

/-- Index of the first occurrence of `pat` in `s` (`strstr`). -/
def findSubIdx : Str → Str → Option Nat
  | s, pat =>
    if startsW s pat then some 0
    else match s with
         | [] => none
         | _ :: r => (findSubIdx r pat).map (· + 1)

/-- Decimal digit test (C `isdigit`). -/
def isDigitB (c : Char) : Bool := 48 ≤ c.toNat && c.toNat ≤ 57

/-- Value of a maximal digit run. -/
def digitsVal (s : Str) : Nat :=
  (s.takeWhile isDigitB).foldl (fun a c => 10 * a + (c.toNat - 48)) 0

/-- Model of C `atoi`: skip whitespace, optional sign, then digits. -/
def atoiL (s : Str) : Int :=
  let s1 := s.dropWhile cIsSpace
  match s1 with
  | '-' :: r => -(digitsVal r : Int)
  | '+' :: r => (digitsVal r : Int)
  | _ => (digitsVal s1 : Int)

/-- Model of `HasHeader`: find the header name case-insensitively, require it
to start a line (preceded by CRLF), to lie within the first `bufferLen`
bytes, and to be followed by `": "`; return the index where the value
starts, `0` meaning failure. -/
def HasHeader (buffer : Str) (bufferLen : Nat) (header : Str) : Nat :=
  let len := header.length
  if len = 0 then 0
  else
    match ciFindIdx buffer header with
    | none => 0
    | some i =>
      if i < 2 then 0
      else if bufferLen < i then 0
      else if ¬(getDC buffer (i - 2) = '\r' ∧ getDC buffer (i - 1) = '\n') then 0
      else if ¬(getDC buffer (i + len) = ':' ∧ getDC buffer (i + len + 1) = ' ') then 0
      else i + len + 2

/-- Model of `GetHeaderValueInt`. -/
def GetHeaderValueInt (buffer : Str) (bufferLen : Nat) (header : Str) : Int :=
  let i := HasHeader buffer bufferLen header
  if i = 0 then 0 else atoiL (buffer.drop i)

/-- Model of `CheckHeaderValue` (a `strncasecmp` of the value start). -/
def CheckHeaderValue (buffer : Str) (bufferLen : Nat) (header value : Str) : Bool :=
  let i := HasHeader buffer bufferLen header
  if i = 0 then false else ciStarts (buffer.drop i) value

/-- Model of `GetResponseLen`: offset just past the first CRLFCRLF, `0` if
absent. -/
def GetResponseLen (buffer : Str) : Nat :=
  match findSubIdx buffer ['\r', '\n', '\r', '\n'] with
  | none => 0
  | some i => i + 4

/-- Model of `GetHeaderValue`: the header's value text up to the next CRLF. -/
def GetHeaderValue (buffer : Str) (bufferLen : Nat) (header : Str) : Option Str :=
  let i := HasHeader buffer bufferLen header
  if i = 0 then none
  else
    match findSubIdx (buffer.drop i) ['\r', '\n'] with
    | none => none
    | some j => some ((buffer.drop i).take j)

/-- Model of `SipSetPeerTag`: outside a dialog, extract the `tag=` value from
the `To:` header (terminated by space, CR or end of string) into
`peer_tag`; otherwise leave it unchanged. -/
def SipSetPeerTag (in_a_dialog : Bool) (peer_tag : Str) (buffer : Str) (bufferLen : Nat) : Str :=
  if in_a_dialog then peer_tag
  else
    match GetHeaderValue buffer bufferLen "To".data with
    | none => peer_tag
    | some to_header =>
      match findSubIdx to_header "tag=".data with
      | none => peer_tag
      | some i => (to_header.drop (i + 4)).takeWhile (fun c => ¬(c = ' ' ∨ c = '\r'))

/-- Asterisk compatibility-bitfield codec identifiers (from the external
header `asterisk/format_compatibility.h`; `AST_FORMAT_AMRNB` is defined as
`0` by this module itself). -/
def AST_FORMAT_G723 : Nat := 1 <<< 0
def AST_FORMAT_GSM : Nat := 1 <<< 1
def AST_FORMAT_ULAW : Nat := 1 <<< 2
def AST_FORMAT_ALAW : Nat := 1 <<< 3
def AST_FORMAT_G726_AAL2 : Nat := 1 <<< 4
def AST_FORMAT_ADPCM : Nat := 1 <<< 5
def AST_FORMAT_SLIN : Nat := 1 <<< 6
def AST_FORMAT_LPC10 : Nat := 1 <<< 7
def AST_FORMAT_G729 : Nat := 1 <<< 8
def AST_FORMAT_SPEEX : Nat := 1 <<< 9
def AST_FORMAT_ILBC : Nat := 1 <<< 10
def AST_FORMAT_G726 : Nat := 1 <<< 11
def AST_FORMAT_G722 : Nat := 1 <<< 12
def AST_FORMAT_AMRNB : Nat := 0
def AST_FORMAT_JPEG : Nat := 1 <<< 16
def AST_FORMAT_PNG : Nat := 1 <<< 17
def AST_FORMAT_H261 : Nat := 1 <<< 18
def AST_FORMAT_H263 : Nat := 1 <<< 19
def AST_FORMAT_H263P : Nat := 1 <<< 20
def AST_FORMAT_H264 : Nat := 1 <<< 21
def AST_FORMAT_MP4 : Nat := 1 <<< 22

/-- One row of the static `mimeTypes` table. -/
structure MimeEntry where
  format : Nat
  name : Str
deriving DecidableEq

/-- The static `mimeTypes` table, in source order. -/
def mimeTypes : List MimeEntry :=
  [ ⟨AST_FORMAT_G723, "G723".data⟩,
    ⟨AST_FORMAT_GSM, "GSM".data⟩,
    ⟨AST_FORMAT_ULAW, "PCMU".data⟩,
    ⟨AST_FORMAT_ALAW, "PCMA".data⟩,
    ⟨AST_FORMAT_G726, "G726-32".data⟩,
    ⟨AST_FORMAT_ADPCM, "DVI4".data⟩,
    ⟨AST_FORMAT_SLIN, "L16".data⟩,
    ⟨AST_FORMAT_LPC10, "LPC".data⟩,
    ⟨AST_FORMAT_G729, "G729".data⟩,
    ⟨AST_FORMAT_SPEEX, "speex".data⟩,
    ⟨AST_FORMAT_ILBC, "iLBC".data⟩,
    ⟨AST_FORMAT_G722, "G722".data⟩,
    ⟨AST_FORMAT_G726_AAL2, "AAL2-G726-32".data⟩,
    ⟨AST_FORMAT_AMRNB, "AMR".data⟩,
    ⟨AST_FORMAT_JPEG, "JPEG".data⟩,
    ⟨AST_FORMAT_PNG, "PNG".data⟩,
    ⟨AST_FORMAT_H261, "H261".data⟩,
    ⟨AST_FORMAT_H263, "H263".data⟩,
    ⟨AST_FORMAT_H263P, "H263-2000".data⟩,
    ⟨AST_FORMAT_H264, "H264".data⟩,
    ⟨AST_FORMAT_MP4, "MP4V-ES".data⟩ ]

/-- One `SDPFormat` slot. -/
structure SDPFormat where
  payload : Int
  format : Nat
  control : Option Str
deriving DecidableEq

instance : Inhabited SDPFormat := ⟨⟨-1, 0, none⟩⟩

/-- One `SDPMedia`. -/
structure SDPMedia where
  formats : List SDPFormat
  num : Nat
  all : Nat
  peer_media_port : Nat
deriving DecidableEq

/-- Model of `CreateMedia`: count the spaces of the `m=` line; fewer than 3
spaces means no media; otherwise `num = spaces - 2` format slots are
allocated and initialised with payload `-1`, format `0`, no control URL. -/
def CreateMedia (line : Str) : Option SDPMedia :=
  let num := (line.filter (fun c => c = ' ')).length
  if num < 3 then none
  else some { formats := List.replicate (num - 2) ⟨-1, 0, none⟩
              num := num - 2, all := 0, peer_media_port := 0 }

/-- The `mimeTypes` scan of the `a=rtpmap:` branch of `CreateSDP`.  For
*every* table row whose name matches the rtpmap codec name on its first
`tok.length` characters case-insensitively (`strncasecmp(ini, name,
end-ini) == 0`), the current slot `n` receives that row's format and the
line's payload, `all` accumulates the format bit, and `n` advances — the
C `break` after a match is commented out in the source, so the scan
continues through the whole table.  A write at `n ≥ formats.length` is
out of bounds in the C (undefined behaviour); `List.set` drops it. -/
def scanMimeTable : List MimeEntry → Str → Int → List SDPFormat → Nat → Nat →
    List SDPFormat × Nat × Nat
  | [], _, _, fmts, all, n => (fmts, all, n)
  | e :: rest, tok, pl, fmts, all, n =>
    if ciStarts e.name tok then
      let old := fmts.getD n default
      scanMimeTable rest tok pl
        (fmts.set n { old with format := e.format, payload := pl })
        (all ||| e.format) (n + 1)
    else scanMimeTable rest tok pl fmts all n

/-- Which media section the `media` cursor of `CreateSDP` points at. -/
inductive MediaKind | audio | video
deriving DecidableEq

/-- The line-scanning state of `CreateSDP`. -/
structure SDPState where
  audio : Option SDPMedia
  video : Option SDPMedia
  cur : Option MediaKind
  n : Nat
deriving DecidableEq

def SDPState.curMedia (st : SDPState) : Option SDPMedia :=
  match st.cur with
  | some .audio => st.audio
  | some .video => st.video
  | none => none

def SDPState.setCurMedia (st : SDPState) (m : SDPMedia) : SDPState :=
  match st.cur with
  | some .audio => { st with audio := some m }
  | some .video => { st with video := some m }
  | none => st

/-- Model of C `strtol(s, endp, 10)`: skip leading whitespace, then an
optional sign, then decimal digits, saturating at `LONG_MAX`/`LONG_MIN`.
Returns the value and the endptr offset (the number of characters
consumed); when no digit is consumed, no conversion is performed, the
value is `0` and the endptr is the start of the string. -/
def strtolC (s : Str) : Int × Nat :=
  let ws := (s.takeWhile cIsSpace).length
  let t := s.drop ws
  let signLen : Nat := match t with
    | '-' :: _ => 1
    | '+' :: _ => 1
    | _ => 0
  let neg : Bool := match t with
    | '-' :: _ => true
    | _ => false
  let ds := (t.drop signLen).takeWhile isDigitB
  if ds = [] then (0, 0)
  else
    let v : Int := if neg then -(digitsVal ds : Int) else (digitsVal ds : Int)
    let v := if 2 ^ 63 - 1 < v then 2 ^ 63 - 1 else if v < -(2 ^ 63) then -(2 ^ 63) else v
    (v, ws + signLen + ds.length)

/-- Peer media port parse of the audio `m=` line:
`(uint16_t) strtol(i+8, &k, 10)` runs on the buffer *suffix* starting at
the `m=` line (so the whitespace skip of `strtol` may cross the line's
CR LF), and the port is the converted value cast to `uint16_t`.  A `0`
port is only warned about.  For a nonzero port the source then resets it
when `strncmp(k-1, "RTP", 3) == 0`; `k` is the endptr, so `k-1` addresses
the last digit consumed and the compare (reproduced here) can never
match.  Only runs when SIP is enabled. -/
def parsePeerPort (suffix : Str) : Nat :=
  let r := strtolC (suffix.drop 8)
  let port := (r.1 % 65536).toNat
  if port = 0 then 0
  else
    let kpos := 8 + r.2
    if getDC suffix (kpos - 1) = 'R' ∧ getDC suffix kpos = 'T' ∧ getDC suffix (kpos + 1) = 'P'
    then 0
    else port

/-- Processing of one SDP line by `CreateSDP` (the line excludes its
terminating CR/LF; `suffix` is the remaining buffer starting at this line,
on which the peer-port `strtol` operates). -/
def sdpLine (sip_enable : Bool) (line suffix : Str) (st : SDPState) : SDPState :=
  if startsW line "m=".data then
    if startsW (line.drop 2) "video".data then
      let m := CreateMedia line
      { audio := st.audio, video := m, cur := if m.isSome then some .video else none, n := 0 }
    else if startsW (line.drop 2) "audio".data then
      let m := CreateMedia line
      let m2 := if sip_enable then m.map (fun a => { a with peer_media_port := parsePeerPort suffix }) else m
      { audio := m2, video := st.video, cur := if m2.isSome then some .audio else none, n := 0 }
    else
      { audio := st.audio, video := st.video, cur := none, n := 0 }
  else if startsW line "a=rtpmap:".data then
    match st.curMedia with
    | none => st
    | some media =>
      if st.n = media.num then st
      else
        let k := (line.takeWhile (fun c => ¬(c = ' '))).length
        if line.length ≤ k + 1 then st
        else
          let tok := (line.drop (k + 1)).takeWhile (fun c => ¬(c = '/'))
          let pl := atoiL (line.drop 9)
          let r := scanMimeTable mimeTypes tok pl media.formats media.all st.n
          { st.setCurMedia { media with formats := r.1, all := r.2.1 } with n := r.2.2 }
  else if startsW line "a=control:".data then
    match st.curMedia with
    | none => st
    | some media =>
      if media.num < st.n then st
      else
        let url := line.drop 10
        if st.n = 0 then
          st.setCurMedia { media with formats := media.formats.map (fun f => { f with control := some url }) }
        else
          let old := media.formats.getD (st.n - 1) default
          st.setCurMedia { media with formats := media.formats.set (st.n - 1) { old with control := some url } }
  else st

/-- The line loop of `CreateSDP`: split at each `'\n'`, skip lines of length
at most one, strip a trailing `'\r'`, process the line, and continue after
the `'\n'`. -/
def createSDPLoop (sip_enable : Bool) : Nat → Str → SDPState → SDPState
  | 0, _, st => st
  | fuel + 1, buf, st =>
    match findSubIdx buf ['\n'] with
    | none => st
    | some jn =>
      if jn ≤ 1 then createSDPLoop sip_enable fuel (buf.drop (jn + 1)) st
      else
        let line := buf.take (if getDC buf (jn - 1) = '\r' then jn - 1 else jn)
        createSDPLoop sip_enable fuel (buf.drop (jn + 1)) (sdpLine sip_enable line buf st)

/-- The parsed `SDPContent`. -/
structure SDPContent where
  audio : Option SDPMedia
  video : Option SDPMedia
deriving DecidableEq

/-- Model of `CreateSDP`.  The v2.0 source drops the `j < buffer+bufferLen`
bound and scans the whole NUL-terminated buffer, so the model takes just
the buffer contents. -/
def CreateSDP (sip_enable : Bool) (buf : Str) : SDPContent :=
  let st := createSDPLoop sip_enable (buf.length + 1) buf ⟨none, none, none, 0⟩
  { audio := st.audio, video := st.video }

/-- SIP dialog state of the player that the INVITE 2xx handler touches. -/
structure SipPlayerSt where
  in_a_dialog : Bool
  peer_tag : Str
  branch_id : Str
  cseqInvite : Int
  cseqAck : Int
deriving DecidableEq

/-- Observable outcome of the `SIP_STATE_INVITE` 2xx (code 200) handler. -/
structure Sip2xxOut where
  player : SipPlayerSt
  ackSent : Bool
  ackBranch : Str
  enable_sip_tx : Bool
  rtpDst : Option Nat
  sdpParsed : Bool
  mismatchLogged : Bool
deriving DecidableEq

/-- Model of the `SIP_STATE_INVITE` handler for a 200 response: learn the
peer tag (only outside a dialog), mark the dialog established, set the ACK
CSeq from the INVITE CSeq, send the ACK with a freshly generated branch
(`SipSpeakerAck(...,2)` calls `generateBranch`; the fresh random branch is
the `newBranch` parameter), then locate and parse the SDP answer.  If the
answer's audio format count differs from 1, only a log is emitted; if the
single answered format differs from the offered `audioFormat`, the
mismatch is also only logged and — exactly as in the C — transmission is
still enabled and the RTP socket connected to the answered peer port.
When the parsed SDP has no audio section the C dereferences a NULL
pointer; that path is modelled as leaving transmission disabled. -/
def sipInvite2xx200 (st : SipPlayerSt) (buffer : Str) (audioFormat : Nat) (newBranch : Str) :
    Sip2xxOut :=
  let tag := SipSetPeerTag st.in_a_dialog st.peer_tag buffer buffer.length
  let st1 : SipPlayerSt :=
    { in_a_dialog := true, peer_tag := tag, branch_id := newBranch
      cseqInvite := st.cseqInvite, cseqAck := st.cseqInvite - 1 }
  let base : Sip2xxOut :=
    { player := st1, ackSent := true, ackBranch := newBranch, enable_sip_tx := false
      rtpDst := none, sdpParsed := false, mismatchLogged := false }
  let responseLen := GetResponseLen buffer
  if responseLen = 0 then base
  else
    let contentLength := GetHeaderValueInt buffer responseLen "Content-Length".data
    if ¬CheckHeaderValue buffer responseLen "Content-Type".data "application/sdp".data then base
    else if ((buffer.length : Int) - responseLen) < contentLength then base
    else
      let sdp := CreateSDP true (buffer.drop responseLen)
      match sdp.audio with
      | none => base
      | some a =>
        if a.num ≠ 1 then { base with sdpParsed := true }
        else
          { base with
              sdpParsed := true
              mismatchLogged := (a.formats.getD 0 default).format ≠ audioFormat
              enable_sip_tx := true
              rtpDst := some a.peer_media_port }

/-- Model of `struct MediaStats`. -/
structure MediaStats where
  count : Nat
  minSN : Nat
  maxSN : Nat
  lastTS : Nat
  ssrc : Nat
deriving DecidableEq

/-- Unsigned 32-bit subtraction as performed on the `unsigned int` stats
fields. -/
def sub32 (a b : Nat) : Nat := (a % 2 ^ 32 + 2 ^ 32 - b % 2 ^ 32) % 2 ^ 32

/-- The receiver-report packet as filled in by `MediaStatsRR` (field values
in host order; `htons`/`htonl` byte swapping is memory layout and not
modelled). -/
structure RtcpRRPkt where
  version : Nat
  p : Nat
  rcount : Nat
  pt : Nat
  length : Nat
  reporterSsrc : Nat
  reportedSsrc : Nat
  fraction : Nat
  lost : Nat
  last_seq : Nat
  jitter : Nat
  lsr : Nat
  dlsr : Nat
deriving DecidableEq

/-- Model of `MediaStatsRR`.  The reporter SSRC is `random()` (parameter
`randSsrc`), and `dlsr` is the wall-clock difference (parameter
`tvdiff`).  Fraction lost divides only when `maxSN - minSN > 0` in
unsigned arithmetic, otherwise it is the sentinel `0xFF`; the 8-bit
bitfield truncates the stored value.  The 24-bit signed `lost` bitfield
is modelled by truncation to 24 bits. -/
def MediaStatsRR (randSsrc tvdiff : Nat) (s : MediaStats) : RtcpRRPkt :=
  let d := sub32 s.maxSN s.minSN
  { version := 2
    p := 0
    rcount := 1
    pt := 201
    length := 7
    reporterSsrc := randSsrc % 2 ^ 32
    reportedSsrc := s.ssrc % 2 ^ 32
    fraction := (if 0 < d then 255 * s.count % 2 ^ 32 / d else 0xFF) % 2 ^ 8
    lost := sub32 d s.count % 2 ^ 24
    last_seq := s.maxSN % 2 ^ 32
    jitter := 0xFF
    lsr := s.lastTS % 2 ^ 32
    dlsr := tvdiff % 2 ^ 32 }

/-- The retry loop of `GetUdpPorts`.  `alloc step req` is the port the
operating system actually binds at allocation number `step` when port
`req` is requested (`0` = any); a bound port is a 16-bit value.  The loop
repeats while the RTP port is odd or the RTCP port is not its successor:
the second socket becomes the first and a new second socket is bound at
the successor port.  `none` models a run that has not terminated within
`fuel` iterations (the C loop has no bound). -/
def GetUdpPortsLoop (alloc : Nat → Nat → Nat) : Nat → Nat → Nat → Nat → Option (Nat × Nat)
  | 0, _, _, _ => none
  | fuel + 1, step, p, q =>
    if p % 2 ≠ 0 ∨ p + 1 ≠ q then
      let p' := q
      let req := if 0 < p' then p' + 1 else 0
      let q' := alloc step req % 65536
      GetUdpPortsLoop alloc fuel (step + 1) p' q'
    else some (p, q)

/-- Model of `GetUdpPorts`: two initial ephemeral binds, then the retry
loop. -/
def GetUdpPorts (alloc : Nat → Nat → Nat) (fuel : Nat) : Option (Nat × Nat) :=
  GetUdpPortsLoop alloc fuel 2 (alloc 0 0 % 65536) (alloc 1 0 % 65536)

/-- A well-formed token: nonempty, alphanumeric, within the scan budget. -/
def wfTok (s : Str) : Bool := simpleStr s && decide (s ≠ []) && decide (s.length ≤ 510)

/-- A well-formed quoted-parameter value: alphanumeric (hence free of quotes,
backslashes and commas), within the scan budget; may be empty. -/
def wfVal (s : Str) : Bool := simpleStr s && decide (s.length ≤ 510)

/-- Well-formed parameter list. -/
def wfParams (ps : List (Str × Str)) : Bool := ps.all (fun p => wfTok p.1 && wfVal p.2)

/-- Render one authentication parameter as `key="value"`. -/
def renderParam (p : Str × Str) : Str := p.1 ++ '=' :: '"' :: p.2 ++ ['"']

/-- Render a comma-separated authentication parameter list. -/
def renderParams : List (Str × Str) → Str
  | [] => []
  | [p] => renderParam p
  | p :: ps => renderParam p ++ ',' :: ' ' :: renderParams ps

/-- Render one challenge: `scheme SP params`. -/
def renderChal (scheme : Str) (ps : List (Str × Str)) : Str := scheme ++ ' ' :: renderParams ps

/-- A message whose headers are one `WWW-Authenticate` header with the given
value. -/
def renderMsg1 (startLine v : Str) : Str :=
  startLine ++ '\r' :: '\n' :: "WWW-Authenticate: ".data ++ v ++ "\r\n\r\n".data

/-- A message with two `WWW-Authenticate` header instances. -/
def renderMsg2 (startLine v1 v2 : Str) : Str :=
  startLine ++ '\r' :: '\n' :: "WWW-Authenticate: ".data ++ v1 ++
    '\r' :: '\n' :: "WWW-Authenticate: ".data ++ v2 ++ "\r\n\r\n".data

/-- A message whose headers are a single header `nm: v` (used for the folding
claims; a folded value carries its CR LF SP separators inside `v`). -/
def hdrMsg (nm v : Str) : Str := nm ++ ':' :: ' ' :: v ++ "\r\n\r\n".data

/-- A header value folded over `1 + segs.length` physical lines: each
continuation line starts with one space. -/
def foldedVal (a : Str) (segs : List Str) : Str :=
  a ++ (segs.map (fun b => '\r' :: '\n' :: ' ' :: b)).flatten

/-- The same value unfolded onto a single line (the obs-fold CRLFs removed,
the continuation whitespace kept). -/
def unfoldedVal (a : Str) (segs : List Str) : Str :=
  a ++ (segs.map (fun b => ' ' :: b)).flatten

/-- Delete all CR and LF characters. -/
def stripCRLF (s : Str) : Str := s.filter (fun c => ¬(c = '\r' ∨ c = '\n'))

/-- A raw header block of `n` identical one-line headers followed by the
empty line. -/
def nHdrBlock (n : Nat) : Str := (List.replicate n "A: b\r\n".data).flatten ++ "\r\n".data

/-- Table rows whose name matches the rtpmap codec name on its first
`tok.length` characters, case-insensitively — the resolution the
`a=rtpmap:` scan performs. -/
def matchingRows (tok : Str) : List MimeEntry := mimeTypes.filter (fun e => ciStarts e.name tok)

/-- Claim-side slot writer: attach each resolved entry, in order, to the next
unfilled format slot, with the line's payload number. -/
def setSlots (pl : Int) : List SDPFormat → Nat → List MimeEntry → List SDPFormat
  | fmts, _, [] => fmts
  | fmts, n, e :: es =>
    setSlots pl (fmts.set n { fmts.getD n default with format := e.format, payload := pl }) (n + 1) es

/-- Bit-or accumulation of the matched formats. -/
def orFormats (all : Nat) : List MimeEntry → Nat
  | [] => all
  | e :: es => orFormats (all ||| e.format) es

/-- Lower-case hexadecimal digit. -/
def isHexDigit (c : Char) : Bool := (48 ≤ c.toNat && c.toNat ≤ 57) || (97 ≤ c.toNat && c.toNat ≤ 102)

/-- A 32-character lower-case hexadecimal string. -/
def hex32 (s : Str) : Bool := decide (s.length = 32) && s.all isHexDigit

/-- The unsigned difference of equal values is zero. -/
lemma sub32_self (a : Nat) : sub32 a a = 0 := by
  simp [sub32]

/-- C9: every receiver report built by `MediaStatsRR` has version 2, padding
0, report count 1, packet type 201 and length 7, with the jitter field set
to the fixed sentinel `0xFF`; and whenever `maxSN = minSN` the
fraction-lost field is the sentinel `0xFF` (the division branch is not
taken). -/
theorem C9_mediastats_rr_header_and_sentinel (randSsrc tvdiff : Nat) (s : MediaStats) :
    (MediaStatsRR randSsrc tvdiff s).version = 2 ∧
    (MediaStatsRR randSsrc tvdiff s).p = 0 ∧
    (MediaStatsRR randSsrc tvdiff s).rcount = 1 ∧
    (MediaStatsRR randSsrc tvdiff s).pt = 201 ∧
    (MediaStatsRR randSsrc tvdiff s).length = 7 ∧
    (MediaStatsRR randSsrc tvdiff s).jitter = 0xFF ∧
    (s.maxSN = s.minSN → (MediaStatsRR randSsrc tvdiff s).fraction = 0xFF) := by
  refine ⟨rfl, rfl, rfl, rfl, rfl, rfl, fun h => ?_⟩
  simp only [MediaStatsRR, h, sub32_self]
  norm_num

/-- Witness: the single-packet statistics state (`maxSN = minSN`) at concrete
values. -/
theorem C9_mediastats_rr_header_and_sentinel_witness :
    (MediaStatsRR 7 9 ⟨5, 100, 100, 11, 22⟩).version = 2 ∧
    (MediaStatsRR 7 9 ⟨5, 100, 100, 11, 22⟩).fraction = 0xFF := by
  have h := C9_mediastats_rr_header_and_sentinel 7 9 ⟨5, 100, 100, 11, 22⟩
  exact ⟨h.1, h.2.2.2.2.2.2 rfl⟩

/-- Whenever the retry loop of `GetUdpPorts` returns, the pair satisfies the
parity/pairing invariant: the loop only exits when the condition
`p % 2 || p + 1 != q` is false. -/
lemma GetUdpPortsLoop_pair (alloc : Nat → Nat → Nat) :
    ∀ fuel step p0 q0 p q, GetUdpPortsLoop alloc fuel step p0 q0 = some (p, q) →
      p % 2 = 0 ∧ q = p + 1 := by
  intro fuel
  induction fuel with
  | zero => intro step p0 q0 p q h; simp [GetUdpPortsLoop] at h
  | succ n ih =>
    intro step p0 q0 p q h
    rw [GetUdpPortsLoop] at h
    split at h
    · exact ih _ _ _ _ _ h
    · rename_i hc
      push_neg at hc
      obtain ⟨h1, h2⟩ := hc
      obtain ⟨rfl, rfl⟩ := Prod.mk.injEq .. ▸ Option.some.injEq .. ▸ h
      exact ⟨h1, h2.symm⟩

/-- C10: whenever `GetUdpPorts` returns a port pair `(p, q)`, the RTP port
`p` is even and the RTCP port `q` equals `p + 1` — in every run,
including those in which the initial allocation was unsuitable and one or
more retry iterations were needed. -/
theorem C10_udp_port_pairing (alloc : Nat → Nat → Nat) (fuel p q : Nat)
    (h : GetUdpPorts alloc fuel = some (p, q)) : p % 2 = 0 ∧ q = p + 1 :=
  GetUdpPortsLoop_pair alloc fuel 2 _ _ p q h

/-- Witness: an allocator whose first two binds give the unsuitable pair
(5001, 5003), forcing two retry iterations before (5004, 5005) is
accepted. -/
theorem C10_udp_port_pairing_witness : 5004 % 2 = 0 ∧ 5005 = 5004 + 1 :=
  C10_udp_port_pairing
    (fun step req => if step = 0 then 5001 else if step = 1 then 5003 else req)
    10 5004 5005 (by decide)

/-- C1 (code bug, evaluation at the failing input): querying `Basic` on a
message whose `WWW-Authenticate` value is
`Basic realm="x", Digest nonce="n"` succeeds, but the parameters handed
back to the caller are those of the *following* `Digest` challenge
(`nonce="n"`), not those of the matched `Basic` challenge
(`realm="x"`): after the match, `return_code` stays `0` and every later
challenge's parameter parse overwrites the output arrays, contradicting
the function's own documented contract. -/
theorem C1_checkauthscheme_returns_following_challenge_params :
    CheckAuthScheme
      "RTSP/1.0 401 Unauthorized\r\nWWW-Authenticate: Basic realm=\"x\", Digest nonce=\"n\"\r\n\r\n".data
      "Basic".data = (0, [("nonce".data, "n".data)]) ∧
    [("nonce".data, "n".data)] ≠ [("realm".data, "x".data)] := by decide

/-- C5 counterexample: a header block with 101 header lines does not produce
a hard parse failure — `parse_headers` succeeds and silently returns only
the first 100 headers. -/
theorem C5_counterexample_header_cap_is_silent_truncation :
    parse_headers (nHdrBlock 101) = some (List.replicate 100 ("A".data, " b".data)) ∧
    (101 : Nat) ≠ 100 := by decide

/-- C6 counterexample: the folded message `X: a\r\n b` parses to the value
`" a\r\n b"` — the fold's CR LF is retained verbatim — while the unfolded
equivalent `X: a b` parses to `" a b"`; the two logical pairs differ. -/
theorem C6_counterexample_folded_value_keeps_crlf :
    parse_headers "X: a\r\n b\r\n\r\n".data = some [("X".data, " a\r\n b".data)] ∧
    parse_headers "X: a b\r\n\r\n".data = some [("X".data, " a b".data)] ∧
    (" a\r\n b".data : Str) ≠ " a b".data := by decide

/-- C4 counterexample: an RTSP `DESCRIBE` 401 carrying only
`Basic realm="other"` produces an Authorization header although the
received realm `"other"` differs from the configured realm (`"mine"`,
say — the RTSP handler takes no configured realm at all and performs no
realm comparison on the Basic path). -/
theorem C4_counterexample_rtsp_basic_authorizes_on_foreign_realm :
    GetAuthSchemeBasic "RTSP/1.0 401 U\r\nWWW-Authenticate: Basic realm=\"other\"\r\n\r\n".data =
      some ⟨"other".data⟩ ∧
    (rtspDescribe401 (fun _ => "c3fcd3d76192e4007dfb496cca67e13b".data) (fun s => s)
      "RTSP/1.0 401 U\r\nWWW-Authenticate: Basic realm=\"other\"\r\n\r\n".data
      "u".data "p".data "cam".data "/x".data).authorization.isSome = true ∧
    ("other".data : Str) ≠ "mine".data := by decide

/-- C7 counterexample: a 2xx INVITE answer whose single audio format (PCMA)
differs from the offered format (ULAW) logs the mismatch but still
enables outbound transmission and connects the RTP socket to the
answered peer port 4000 — the claim said transmission would not be
enabled. -/
theorem C7_counterexample_mismatched_codec_still_enables_tx :
    ((sipInvite2xx200 ⟨false, [], "old".data, 2, 1⟩
        "SIP/2.0 200 OK\r\nTo: <sip:u@h>;tag=ptag\r\nContent-Type: application/sdp\r\nContent-Length: 10\r\n\r\nv=0\r\nm=audio 4000 RTP/AVP 8\r\na=rtpmap:8 PCMA/8000\r\n".data
        AST_FORMAT_ULAW "fresh".data).mismatchLogged,
     (sipInvite2xx200 ⟨false, [], "old".data, 2, 1⟩
        "SIP/2.0 200 OK\r\nTo: <sip:u@h>;tag=ptag\r\nContent-Type: application/sdp\r\nContent-Length: 10\r\n\r\nv=0\r\nm=audio 4000 RTP/AVP 8\r\na=rtpmap:8 PCMA/8000\r\n".data
        AST_FORMAT_ULAW "fresh".data).enable_sip_tx,
     (sipInvite2xx200 ⟨false, [], "old".data, 2, 1⟩
        "SIP/2.0 200 OK\r\nTo: <sip:u@h>;tag=ptag\r\nContent-Type: application/sdp\r\nContent-Length: 10\r\n\r\nv=0\r\nm=audio 4000 RTP/AVP 8\r\na=rtpmap:8 PCMA/8000\r\n".data
        AST_FORMAT_ULAW "fresh".data).rtpDst) = (true, true, some 4000) := by decide

/-- C8 counterexample: in the SDP
`m=video 0 RTP/AVP 34 96` / `a=rtpmap:34 H263/90000` /
`a=rtpmap:96 H264/90000`, the single `a=rtpmap:34 H263/...` line fills
*two* format slots (the table scan has no break, and `H263` matches both
the `H263` and the `H263-2000` rows), so the second declared format ends
up as H263-2000 with payload 34 and the `H264` rtpmap line is never
attached — not "exactly the next unfilled slot" per resolved name. -/
theorem C8_counterexample_one_rtpmap_line_fills_two_slots :
    CreateSDP true
      "v=0\r\nm=video 0 RTP/AVP 34 96\r\na=rtpmap:34 H263/90000\r\na=rtpmap:96 H264/90000\r\n".data =
      { audio := none
        video := some { formats := [⟨34, AST_FORMAT_H263, none⟩, ⟨34, AST_FORMAT_H263P, none⟩]
                        num := 2, all := AST_FORMAT_H263 ||| AST_FORMAT_H263P
                        peer_media_port := 0 } } ∧
    AST_FORMAT_H263P ≠ AST_FORMAT_H264 := by decide

/-- Every list is a `startsW`-prefix of itself followed by anything. -/
lemma startsW_append_self (a b : Str) : startsW (a ++ b) a = true := by
  induction a with
  | nil => cases b <;> rfl
  | cons c r ih => simp [startsW, ih]

/-- C3: provided the fixed MD5 self-test passes, `auth_digest` returns
exactly the staged RFC2069 value
`H(H(user:realm:pass) : nonce : H(method:uri))`; the result is a
32-hex-character string whenever the hash function produces such strings
(as `ast_md5_hash` does); the function is deterministic (two calls with
identical inputs are identical); and the challenge's `qop`/`cnonce`/`nc`
values never enter the hash input: for every choice of `nc`/`cnonce`/
`qop`, the Authorization header built by `RtspPlayerDigestAuthorization`
succeeds and begins with the same `digestAuthBase` — which embeds the
response digest computed from the six hash inputs only — the extra
parameters being appended after it as literals. -/
theorem C3_auth_digest_rfc2069_shape (md5 : Str → Str)
    (hself : md5 "abcdefghijklmnopqrstuvwxyz".data = "c3fcd3d76192e4007dfb496cca67e13b".data)
    (hhex : ∀ s, hex32 (md5 s) = true)
    (username passwd realm nonce uri method : Str) :
    auth_digest md5 username passwd realm nonce uri method =
      some (md5 ((md5 (username ++ ':' :: realm ++ ':' :: passwd)) ++ ':' :: nonce ++ ':' ::
        (md5 (method ++ ':' :: uri)))) ∧
    hex32 (md5 ((md5 (username ++ ':' :: realm ++ ':' :: passwd)) ++ ':' :: nonce ++ ':' ::
        (md5 (method ++ ':' :: uri)))) = true ∧
    auth_digest md5 username passwd realm nonce uri method =
      auth_digest md5 username passwd realm nonce uri method ∧
    (∀ nc cnonce qop isSIP,
      (RtspPlayerDigestAuthorization md5 username passwd realm nonce nc cnonce qop uri realm
          method isSIP).1 = 1 ∧
      startsW
        (((RtspPlayerDigestAuthorization md5 username passwd realm nonce nc cnonce qop uri realm
            method isSIP).2).getD [])
        (digestAuthBase username realm nonce uri
          (md5 ((md5 (username ++ ':' :: realm ++ ':' :: passwd)) ++ ':' :: nonce ++ ':' ::
            (md5 (method ++ ':' :: uri))))) = true) := by
  have hd : auth_digest md5 username passwd realm nonce uri method =
      some (md5 ((md5 (username ++ ':' :: realm ++ ':' :: passwd)) ++ ':' :: nonce ++ ':' ::
        (md5 (method ++ ':' :: uri)))) := by
    simp [auth_digest, hself]
  refine ⟨hd, hhex _, rfl, fun nc cnonce qop isSIP => ?_⟩
  simp only [RtspPlayerDigestAuthorization, if_neg (by simp : ¬realm ≠ realm), hd,
    Option.getD_some]
  refine ⟨trivial, ?_⟩
  cases isSIP <;>
    simp only [if_true, if_false, Bool.false_eq_true, Option.getD_some, List.append_assoc] <;>
    exact startsW_append_self _ _

/-- Witness for C3 at concrete inputs, with a concrete (constant) hash
function satisfying the self-test and hex-output hypotheses. -/
theorem C3_auth_digest_rfc2069_shape_witness :
    auth_digest (fun _ => "c3fcd3d76192e4007dfb496cca67e13b".data)
        "u".data "p".data "r".data "n".data "rtsp://h/x".data "DESCRIBE".data =
      some "c3fcd3d76192e4007dfb496cca67e13b".data := by
  have hc : hex32 "c3fcd3d76192e4007dfb496cca67e13b".data = true := by decide
  exact (C3_auth_digest_rfc2069_shape (fun _ => "c3fcd3d76192e4007dfb496cca67e13b".data)
    (by decide) (fun _ => hc)
    "u".data "p".data "r".data "n".data "rtsp://h/x".data "DESCRIBE".data).1

/-- Numeric bounds extracted from `alnumB`. -/
lemma alnumB_bounds {c : Char} (h : alnumB c = true) :
    (65 ≤ c.toNat ∧ c.toNat ≤ 90) ∨ (97 ≤ c.toNat ∧ c.toNat ≤ 122) ∨
      (48 ≤ c.toNat ∧ c.toNat ≤ 57) := by
  have h' := h
  simp only [alnumB, Bool.or_eq_true, Bool.and_eq_true, decide_eq_true_eq] at h'
  tauto

/-- An alphanumeric character is not C whitespace. -/
lemma alnumB_not_space {c : Char} (h : alnumB c = true) : cIsSpace c = false := by
  have hb := alnumB_bounds h
  simp only [cIsSpace, Bool.or_eq_false_iff, decide_eq_false_iff_not]
  omega

/-- An alphanumeric character differs from the given delimiter characters. -/
lemma alnumB_ne_delims {c : Char} (h : alnumB c = true) :
    c ≠ '\r' ∧ c ≠ '\n' ∧ c ≠ ':' ∧ c ≠ '"' ∧ c ≠ ',' ∧ c ≠ '=' ∧ c ≠ ' ' ∧ c ≠ '\\' ∧
      c ≠ '/' ∧ c ≠ '\t' := by
  refine ⟨?_, ?_, ?_, ?_, ?_, ?_, ?_, ?_, ?_, ?_⟩ <;>
    (rintro rfl; exact absurd h (by decide))

/-- An alphanumeric character stops neither the key scan nor the bare-value
scan. -/
lemma alnumB_not_keyStop {c : Char} (h : alnumB c = true) :
    keyStop c = false ∧ valStop c = false := by
  obtain ⟨-, -, -, -, h5, h6, h7, -⟩ := alnumB_ne_delims h
  simp [keyStop, valStop, h5, h6, h7]

/-- `scanStop` consumes exactly a stop-free token and halts at the first stop
character (or the end of the string), provided the budget covers the
token. -/
lemma scanStop_exact (stop : Char → Bool) :
    ∀ (t : Str) (r : Str) (b : Nat), (∀ c ∈ t, stop c = false) →
      (r = [] ∨ ∃ c rest, r = c :: rest ∧ stop c = true) →
      t.length ≤ b → scanStop stop b (t ++ r) = (t, r) := by
  intro t
  induction t with
  | nil =>
    intro r b _ hr _
    rcases hr with rfl | ⟨c, rest, rfl, hc⟩
    · cases b <;> rfl
    · cases b with
      | zero => rfl
      | succ b => simp [scanStop, hc]
  | cons c t ih =>
    intro r b ht hr hb
    cases b with
    | zero => simp at hb
    | succ b =>
      have hc : stop c = false := ht c (by simp)
      have := ih r b (fun d hd => ht d (by simp [hd])) hr (by simpa using hb)
      simp [scanStop, hc, this]

/-- `dropWhile` skips a block of satisfying characters and halts at the first
failing character (or the end). -/
lemma dropWhile_all_head (p : Char → Bool) :
    ∀ (t r : Str), (∀ c ∈ t, p c = true) →
      (r = [] ∨ ∃ c rest, r = c :: rest ∧ p c = false) →
      (t ++ r).dropWhile p = r := by
  intro t
  induction t with
  | nil =>
    intro r _ hr
    rcases hr with rfl | ⟨c, rest, rfl, hc⟩
    · rfl
    · simp [List.dropWhile_cons, hc]
  | cons c t ih =>
    intro r ht hr
    have hc : p c = true := ht c (by simp)
    simp only [List.cons_append, List.dropWhile_cons, hc, if_true]
    exact ih r (fun d hd => ht d (by simp [hd])) hr

/-- The quoted-value scan consumes exactly a quote-and-backslash-free value
and halts at the closing quote, provided the budget covers the value. -/
lemma scanQ_exact :
    ∀ (v : Str) (prev : Char) (b : Nat) (r : Str),
      (∀ c ∈ v, c ≠ '"' ∧ c ≠ '\\') → prev ≠ '\\' → v.length ≤ b →
      scanQ b prev (v ++ '"' :: r) = (v, '"' :: r) := by
  intro v
  induction v with
  | nil =>
    intro prev b r _ hprev _
    cases b with
    | zero => rfl
    | succ b => simp [scanQ, hprev]
  | cons c v ih =>
    intro prev b r hv hprev hb
    cases b with
    | zero => simp at hb
    | succ b =>
      have hc := hv c (by simp)
      have := ih c b r (fun d hd => hv d (by simp [hd])) hc.2 (by simpa using hb)
      simp [scanQ, hc.1, this]

/-- `scanQuoted` on a rendered quoted value: value out, closing quote
skipped. -/
lemma scanQuoted_exact (v r : Str) (hv : ∀ c ∈ v, c ≠ '"' ∧ c ≠ '\\')
    (hl : v.length ≤ 510) : scanQuoted (v ++ '"' :: r) = (v, r) := by
  have h := scanQ_exact v '"' TOKBUDGET r hv (by decide) (by simp [TOKBUDGET]; omega)
  simp [scanQuoted, h]

/-- Characters of a `simpleStr` are alphanumeric. -/
lemma simpleStr_mem {s : Str} (h : simpleStr s = true) {c : Char} (hc : c ∈ s) :
    alnumB c = true := by
  rw [simpleStr, List.all_eq_true] at h
  exact h c hc

/-- `parse_auth_scheme` on a rendered challenge: the scheme token, then the
single separating space skipped, provided what follows starts with a
non-whitespace character (or is empty). -/
lemma parse_auth_scheme_render (sch rest : Str) (hs : simpleStr sch = true)
    (hl : sch.length ≤ 510)
    (hr : rest = [] ∨ ∃ c t, rest = c :: t ∧ cIsSpace c = false) :
    parse_auth_scheme (sch ++ ' ' :: rest) = (sch, rest) := by
  have hscan : scanStop cIsSpace TOKBUDGET (sch ++ ' ' :: rest) = (sch, ' ' :: rest) :=
    scanStop_exact cIsSpace sch (' ' :: rest) TOKBUDGET
      (fun c hc => alnumB_not_space (simpleStr_mem hs hc))
      (Or.inr ⟨' ', rest, rfl, by decide⟩) (by simp [TOKBUDGET]; omega)
  have hdrop : (' ' :: rest).dropWhile cIsSpace = rest := by
    have := dropWhile_all_head cIsSpace [' '] rest (by intro c hc; simp at hc; subst hc; decide)
      (by rcases hr with rfl | ⟨c, t, rfl, hc⟩
          · exact Or.inl rfl
          · exact Or.inr ⟨c, t, rfl, hc⟩)
    simpa using this
  simp [parse_auth_scheme, hscan, hdrop]

/-- A string containing a double quote is not a token68. -/
lemma is_token68_false_of_quote {s : Str} (h : '"' ∈ s) : is_token68 s = false := by
  rw [is_token68]
  by_contra hc
  rw [Bool.not_eq_false, List.all_eq_true] at hc
  have h2 := hc '"' h
  exact absurd h2 (by decide)

/-- Each rendered parameter contributes at least one character, so the
parameter count is bounded by the rendered length. -/
lemma length_le_renderParams : ∀ ps : List (Str × Str), ps.length ≤ (renderParams ps).length := by
  intro ps
  induction ps with
  | nil => simp [renderParams]
  | cons p ps ih =>
    cases ps with
    | nil => simp [renderParams, renderParam]; omega
    | cons q ps' =>
      simp only [renderParams, List.length_cons, List.length_append] at *
      simp [renderParam]
      omega

/-- Components of a well-formed parameter list head. -/
lemma wfParams_cons {p : Str × Str} {ps : List (Str × Str)} (h : wfParams (p :: ps) = true) :
    simpleStr p.1 = true ∧ p.1 ≠ [] ∧ p.1.length ≤ 510 ∧ simpleStr p.2 = true ∧
      p.2.length ≤ 510 ∧ wfParams ps = true := by
  simp only [wfParams, List.all_cons, Bool.and_eq_true, wfTok, wfVal, decide_eq_true_eq] at h
  exact ⟨h.1.1.1.1, h.1.1.1.2, h.1.1.2, h.1.2.1, h.1.2.2, h.2⟩

/-- The whitespace-or-comma skip at the top of the parameter loop. -/
lemma dropSkip_render (pre r : Str)
    (hpre : pre = [] ∨ pre = [',', ' '])
    (hr : r = [] ∨ ∃ c t, r = c :: t ∧ alnumB c = true) :
    (pre ++ r).dropWhile (fun c => cIsSpace c || c = ',') = r := by
  refine dropWhile_all_head _ pre r ?_ ?_
  · rcases hpre with rfl | rfl
    · intro c hc; simp at hc
    · intro c hc
      simp at hc
      rcases hc with rfl | rfl <;> decide
  · rcases hr with rfl | ⟨c, t, rfl, hc⟩
    · exact Or.inl rfl
    · refine Or.inr ⟨c, t, rfl, ?_⟩
      have h1 := alnumB_not_space hc
      have h2 := (alnumB_ne_delims hc).2.2.2.2.1
      simp [h1, h2]

/-- The parameter loop on a rendered parameter list: it returns exactly the
rendered pairs, and reports a following challenge (`more_auths`) precisely
when the rendering is followed by `", scheme ..."`. -/
lemma paramsLoop_render :
    ∀ (ps : List (Str × Str)) (pre : Str) (acc : List (Str × Str)) (tail : Str)
      (fuel : Nat) (more : Option Str),
      wfParams ps = true →
      (pre = [] ∨ (pre = [',', ' '] ∧ ps ≠ [])) →
      (tail = [] ∧ more = none ∨
        ∃ sch rest2, tail = ',' :: ' ' :: (sch ++ ' ' :: rest2) ∧ simpleStr sch = true ∧
          sch ≠ [] ∧ sch.length ≤ 510 ∧ more = some (sch ++ ' ' :: rest2)) →
      ps.length + 1 ≤ fuel →
      parse_auth_paramsLoop fuel (pre ++ renderParams ps ++ tail) acc =
        (acc.reverse ++ ps, more) := by
  intro ps
  induction ps with
  | nil =>
    intro pre acc tail fuel more _ hpre htail hfuel
    have hpe : pre = [] := by
      rcases hpre with rfl | ⟨rfl, hne⟩
      · rfl
      · exact absurd rfl hne
    subst hpe
    rcases htail with ⟨rfl, rfl⟩ | ⟨sch, rest2, rfl, hsch, hne, hlen, rfl⟩
    · simp only [renderParams, List.nil_append, List.append_nil]
      cases fuel <;> simp [parse_auth_paramsLoop]
    · obtain ⟨f, rfl⟩ : ∃ f, fuel = f + 1 := ⟨fuel - 1, by omega⟩
      obtain ⟨c, sch', rfl⟩ : ∃ c sch', sch = c :: sch' := by
        cases sch with
        | nil => exact absurd rfl hne
        | cons c t => exact ⟨c, t, rfl⟩
      have hdrop : (',' :: ' ' :: (c :: sch' ++ ' ' :: rest2)).dropWhile
          (fun c => cIsSpace c || c = ',') = c :: sch' ++ ' ' :: rest2 := by
        have := dropSkip_render [',', ' '] (c :: sch' ++ ' ' :: rest2) (Or.inr rfl)
          (Or.inr ⟨c, sch' ++ ' ' :: rest2, rfl, simpleStr_mem hsch (by simp)⟩)
        simpa using this
      have hkey : scanStop keyStop TOKBUDGET (c :: sch' ++ ' ' :: rest2) =
          (c :: sch', ' ' :: rest2) := by
        have := scanStop_exact keyStop (c :: sch') (' ' :: rest2) TOKBUDGET
          (fun d hd => (alnumB_not_keyStop (simpleStr_mem hsch hd)).1)
          (Or.inr ⟨' ', rest2, rfl, by decide⟩)
          (by simp [TOKBUDGET] at hlen ⊢; omega)
        simpa using this
      simp only [renderParams, List.nil_append, parse_auth_paramsLoop, hdrop, hkey]
      have hnil : acc.reverse ++ ([] : List (Str × Str)) = acc.reverse := by simp
      rw [hnil]
      rfl
  | cons p ps' ih =>
    intro pre acc tail fuel more hw hpre htail hfuel
    obtain ⟨hs1, hne1, hl1, hs2, hl2, hw'⟩ := wfParams_cons hw
    obtain ⟨f, rfl⟩ : ∃ f, fuel = f + 1 := ⟨fuel - 1, by omega⟩
    obtain ⟨c1, p1', hc1⟩ : ∃ c1 p1', p.1 = c1 :: p1' := by
      cases hp : p.1 with
      | nil => exact absurd hp hne1
      | cons c t => exact ⟨c, t, rfl⟩
    have halnum1 : alnumB c1 = true := simpleStr_mem hs1 (by rw [hc1]; simp)
    have hpre' : pre = [] ∨ pre = [',', ' '] := by
      rcases hpre with rfl | ⟨rfl, _⟩
      exacts [Or.inl rfl, Or.inr rfl]
    have hstep : ∀ REST : Str,
        parse_auth_paramsLoop (f + 1)
          (pre ++ (p.1 ++ '=' :: '"' :: (p.2 ++ '"' :: REST))) acc =
        parse_auth_paramsLoop f REST ((p.1, p.2) :: acc) := by
      intro REST
      have hdrop : (pre ++ (p.1 ++ '=' :: '"' :: (p.2 ++ '"' :: REST))).dropWhile
          (fun c => cIsSpace c || c = ',') =
          p.1 ++ '=' :: '"' :: (p.2 ++ '"' :: REST) := by
        refine dropSkip_render pre _ hpre' ?_
        rw [hc1]
        exact Or.inr ⟨c1, _, rfl, halnum1⟩
      have hkey : scanStop keyStop TOKBUDGET (p.1 ++ '=' :: '"' :: (p.2 ++ '"' :: REST)) =
          (p.1, '=' :: '"' :: (p.2 ++ '"' :: REST)) :=
        scanStop_exact keyStop p.1 _ TOKBUDGET
          (fun d hd => (alnumB_not_keyStop (simpleStr_mem hs1 hd)).1)
          (Or.inr ⟨'=', _, rfl, by decide⟩)
          (by simp only [TOKBUDGET]; omega)
      have hq : scanQuoted (p.2 ++ '"' :: REST) = (p.2, REST) :=
        scanQuoted_exact p.2 REST
          (fun d hd =>
            ⟨(alnumB_ne_delims (simpleStr_mem hs2 hd)).2.2.2.1,
             (alnumB_ne_delims (simpleStr_mem hs2 hd)).2.2.2.2.2.2.2.1⟩)
          hl2
      have hne : ∃ d ds, pre ++ (p.1 ++ '=' :: '"' :: (p.2 ++ '"' :: REST)) = d :: ds := by
        rcases hpre' with rfl | rfl
        · rw [List.nil_append, hc1]; exact ⟨_, _, rfl⟩
        · exact ⟨_, _, rfl⟩
      obtain ⟨d, ds, hds⟩ := hne
      rw [hds] at hdrop ⊢
      simp only [parse_auth_paramsLoop, hdrop, hkey, hq]
    cases ps' with
    | nil =>
      have hshape : pre ++ renderParams [p] ++ tail =
          pre ++ (p.1 ++ '=' :: '"' :: (p.2 ++ '"' :: tail)) := by
        simp [renderParams, renderParam]
      rw [hshape, hstep tail]
      have hbase := ih [] ((p.1, p.2) :: acc) tail f more rfl (Or.inl rfl) htail
        (by simp at hfuel ⊢; omega)
      simp only [renderParams, List.nil_append] at hbase
      rw [hbase]
      simp
    | cons q ps'' =>
      have hshape : pre ++ renderParams (p :: q :: ps'') ++ tail =
          pre ++ (p.1 ++ '=' :: '"' :: (p.2 ++ '"' ::
            (',' :: ' ' :: (renderParams (q :: ps'') ++ tail)))) := by
        simp [renderParams, renderParam]
      rw [hshape, hstep]
      have hrec := ih [',', ' '] ((p.1, p.2) :: acc) tail f more hw'
        (Or.inr ⟨rfl, by simp⟩) htail (by simp at hfuel ⊢; omega)
      have hform : (([',', ' '] : Str) ++ renderParams (q :: ps'') ++ tail) =
          ',' :: ' ' :: (renderParams (q :: ps'') ++ tail) := by simp
      rw [hform] at hrec
      rw [hrec]
      simp

/-- A nonempty well-formed rendered parameter list starts with an
alphanumeric character. -/
lemma renderParams_shape (p : Str × Str) (ps' : List (Str × Str))
    (hw : wfParams (p :: ps') = true) :
    ∃ c t, renderParams (p :: ps') = c :: t ∧ alnumB c = true := by
  obtain ⟨hs1, hne1, -, -, -, -⟩ := wfParams_cons hw
  obtain ⟨c1, p1', hc1⟩ : ∃ c1 p1', p.1 = c1 :: p1' := by
    cases hp : p.1 with
    | nil => exact absurd hp hne1
    | cons c t => exact ⟨c, t, rfl⟩
  have halnum : alnumB c1 = true := simpleStr_mem hs1 (by rw [hc1]; simp)
  cases ps' with
  | nil =>
    refine ⟨c1, p1' ++ '=' :: '"' :: (p.2 ++ ['"']), ?_, halnum⟩
    simp [renderParams, renderParam, hc1]
  | cons q ps'' =>
    refine ⟨c1, p1' ++ '=' :: '"' :: (p.2 ++ '"' :: ',' :: ' ' :: renderParams (q :: ps'')),
      ?_, halnum⟩
    simp [renderParams, renderParam, hc1]

/-- A nonempty rendered parameter list contains a double quote. -/
lemma quote_mem_renderParams (p : Str × Str) (ps' : List (Str × Str)) :
    '"' ∈ renderParams (p :: ps') := by
  cases ps' with
  | nil => simp [renderParams, renderParam]
  | cons q ps'' => simp [renderParams, renderParam]

/-- `parse_auth_params` on a rendered parameter list, optionally followed by
`", scheme rest2"` announcing a further challenge. -/
lemma parse_auth_params_render (ps : List (Str × Str)) (tail : Str) (more : Option Str)
    (hw : wfParams ps = true)
    (htail : tail = [] ∧ more = none ∨
      ∃ sch rest2, tail = ',' :: ' ' :: (sch ++ ' ' :: rest2) ∧ simpleStr sch = true ∧
        sch ≠ [] ∧ sch.length ≤ 510 ∧ more = some (sch ++ ' ' :: rest2)) :
    parse_auth_params (renderParams ps ++ tail) = (ps, more) := by
  have h := paramsLoop_render ps [] [] tail ((renderParams ps ++ tail).length + 1) more hw
    (Or.inl rfl) htail
    (by have := length_le_renderParams ps; simp; omega)
  simpa [parse_auth_params] using h

/-- One rendered challenge processed by the challenge loop: the return code
becomes `0` exactly when the scheme matches (and is otherwise kept), and
the output parameters are overwritten with this challenge's parameters
exactly when the return code is `0` after the scheme comparison. -/
lemma processChal_single (target sch : Str) (ps : List (Str × Str)) (rc : Int)
    (out : List (Str × Str)) (f : Nat)
    (hsch : simpleStr sch = true) (hschne : sch ≠ []) (hschl : sch.length ≤ 510)
    (hw : wfParams ps = true) (hne : ps ≠ []) :
    processChal target (f + 1) (renderChal sch ps) rc out =
      (if sch = target then 0 else rc,
       if (if sch = target then 0 else rc) = 0 then ps else out) := by
  obtain ⟨p, ps', rfl⟩ : ∃ p ps', ps = p :: ps' := by
    cases ps with
    | nil => exact absurd rfl hne
    | cons p ps' => exact ⟨p, ps', rfl⟩
  obtain ⟨c, t, hct, hc⟩ := renderParams_shape p ps' hw
  have hscheme : parse_auth_scheme (sch ++ ' ' :: renderParams (p :: ps')) = (sch, c :: t) := by
    rw [parse_auth_scheme_render sch _ hsch hschl (Or.inr ⟨c, t, hct, alnumB_not_space hc⟩), hct]
  have htok : is_token68 (c :: t) = false := by
    rw [← hct]
    exact is_token68_false_of_quote (quote_mem_renderParams p ps')
  have hparams : parse_auth_params (c :: t) = (p :: ps', none) := by
    rw [← hct]
    have := parse_auth_params_render (p :: ps') [] none hw (Or.inl ⟨rfl, rfl⟩)
    simpa using this
  rw [renderChal]
  simp only [processChal, hscheme, htok, hparams]
  by_cases hst : sch = target <;> simp [hst]

/-- Two rendered challenges in one header value, separated by `", "`: the
scan reaches the second challenge through `more_auths`, compares both
schemes, and lets each post-match challenge overwrite the parameter
output. -/
lemma processChal_pair (target sch1 sch2 : Str) (ps1 ps2 : List (Str × Str)) (rc : Int)
    (out : List (Str × Str)) (f : Nat)
    (hs1 : simpleStr sch1 = true) (hn1 : sch1 ≠ []) (hl1 : sch1.length ≤ 510)
    (hs2 : simpleStr sch2 = true) (hn2 : sch2 ≠ []) (hl2 : sch2.length ≤ 510)
    (hw1 : wfParams ps1 = true) (hne1 : ps1 ≠ [])
    (hw2 : wfParams ps2 = true) (hne2 : ps2 ≠ []) :
    processChal target (f + 2) (renderChal sch1 ps1 ++ ',' :: ' ' :: renderChal sch2 ps2) rc out =
      (if sch2 = target then 0 else if sch1 = target then 0 else rc,
       if (if sch2 = target then (0 : Int) else if sch1 = target then 0 else rc) = 0 then ps2
       else if (if sch1 = target then (0 : Int) else rc) = 0 then ps1 else out) := by
  obtain ⟨p, ps', rfl⟩ : ∃ p ps', ps1 = p :: ps' := by
    cases ps1 with
    | nil => exact absurd rfl hne1
    | cons p ps' => exact ⟨p, ps', rfl⟩
  obtain ⟨c, t, hct, hc⟩ := renderParams_shape p ps' hw1
  have hrearr : renderChal sch1 (p :: ps') ++ ',' :: ' ' :: renderChal sch2 ps2 =
      sch1 ++ ' ' :: (renderParams (p :: ps') ++ ',' :: ' ' :: (sch2 ++ ' ' :: renderParams ps2)) := by
    simp [renderChal]
  have hR : renderParams (p :: ps') ++ ',' :: ' ' :: (sch2 ++ ' ' :: renderParams ps2) =
      c :: (t ++ ',' :: ' ' :: (sch2 ++ ' ' :: renderParams ps2)) := by
    rw [hct]; simp
  have hscheme : parse_auth_scheme
      (sch1 ++ ' ' :: (renderParams (p :: ps') ++ ',' :: ' ' :: (sch2 ++ ' ' :: renderParams ps2))) =
      (sch1, c :: (t ++ ',' :: ' ' :: (sch2 ++ ' ' :: renderParams ps2))) := by
    rw [parse_auth_scheme_render sch1 _ hs1 hl1
      (Or.inr ⟨c, _, hR, alnumB_not_space hc⟩), hR]
  have htok : is_token68 (c :: (t ++ ',' :: ' ' :: (sch2 ++ ' ' :: renderParams ps2))) = false := by
    rw [← hR]
    exact is_token68_false_of_quote (List.mem_append_left _ (quote_mem_renderParams p ps'))
  have hparams : parse_auth_params (c :: (t ++ ',' :: ' ' :: (sch2 ++ ' ' :: renderParams ps2))) =
      (p :: ps', some (sch2 ++ ' ' :: renderParams ps2)) := by
    rw [← hR]
    exact parse_auth_params_render (p :: ps') _ _ hw1
      (Or.inr ⟨sch2, renderParams ps2, rfl, hs2, hn2, hl2, rfl⟩)
  rw [hrearr]
  simp only [processChal, hscheme, htok, hparams]
  rw [show (sch2 ++ ' ' :: renderParams ps2) = renderChal sch2 ps2 from rfl]
  simp only [ne_eq, reduceCtorEq, not_false_eq_true, and_true]
  obtain ⟨q, qs', rfl⟩ : ∃ q qs', ps2 = q :: qs' := by
    cases ps2 with
    | nil => exact absurd rfl hne2
    | cons q qs' => exact ⟨q, qs', rfl⟩
  obtain ⟨c2, t2, hct2, hc2⟩ := renderParams_shape q qs' hw2
  have hscheme2 : parse_auth_scheme (renderChal sch2 (q :: qs')) = (sch2, c2 :: t2) := by
    rw [renderChal, parse_auth_scheme_render sch2 _ hs2 hl2
      (Or.inr ⟨c2, t2, hct2, alnumB_not_space hc2⟩), hct2]
  have htok2 : is_token68 (c2 :: t2) = false := by
    rw [← hct2]
    exact is_token68_false_of_quote (quote_mem_renderParams q qs')
  have hparams2 : parse_auth_params (c2 :: t2) = (q :: qs', none) := by
    rw [← hct2]
    simpa using parse_auth_params_render (q :: qs') [] none hw2 (Or.inl ⟨rfl, rfl⟩)
  simp only [hscheme2, htok2, hparams2]
  by_cases h1 : sch1 = target <;> by_cases h2 : sch2 = target <;> simp [h1, h2]

/-- `findCRLF` on a CR-free prefix followed by CRLF. -/
lemma findCRLF_clean (s : Str) (t : Str) (h : ∀ c ∈ s, c ≠ '\r') :
    findCRLF (s ++ '\r' :: '\n' :: t) = some (s, t) := by
  induction s with
  | nil => simp [findCRLF]
  | cons c s' ih =>
    have hc : c ≠ '\r' := h c (by simp)
    have := ih (fun d hd => h d (by simp [hd]))
    simp [findCRLF, hc, this]

/-- `splitColon` on a colon-free prefix followed by a colon. -/
lemma splitColon_clean (n r : Str) (h : ∀ c ∈ n, c ≠ ':') :
    splitColon (n ++ ':' :: r) = some (n, r) := by
  induction n with
  | nil => simp [splitColon]
  | cons c n' ih =>
    have hc : c ≠ ':' := h c (by simp)
    have := ih (fun d hd => h d (by simp [hd]))
    simp [splitColon, hc, this]

/-- An unfolded header line: CR-free content, not continued by whitespace. -/
lemma scanLineF_simple (line rest : Str) (fuel : Nat)
    (hline : ∀ c ∈ line, c ≠ '\r')
    (hrest : rest = [] ∨ ∃ c t, rest = c :: t ∧ ¬(c = ' ' ∨ c = '\t'))
    (hfuel : 1 ≤ fuel) :
    scanLineF fuel (line ++ '\r' :: '\n' :: rest) = some (line, rest) := by
  obtain ⟨f, rfl⟩ : ∃ f, fuel = f + 1 := ⟨fuel - 1, by omega⟩
  rcases hrest with rfl | ⟨c, t, rfl, hc⟩
  · simp [scanLineF, findCRLF_clean _ _ hline]
  · simp [scanLineF, findCRLF_clean _ _ hline, hc]

/-- `scanLine` version of the previous lemma. -/
lemma scanLine_simple (line rest : Str)
    (hline : ∀ c ∈ line, c ≠ '\r')
    (hrest : rest = [] ∨ ∃ c t, rest = c :: t ∧ ¬(c = ' ' ∨ c = '\t')) :
    scanLine (line ++ '\r' :: '\n' :: rest) = some (line, rest) :=
  scanLineF_simple line rest _ hline hrest (by omega)

/-- A folded header line: the scan glues the continuation lines, keeping the
CR LF separators in the returned span. -/
lemma scanLineF_folded :
    ∀ (segs : List Str) (a rest : Str) (fuel : Nat),
      (∀ c ∈ a, c ≠ '\r') → (∀ b ∈ segs, ∀ c ∈ b, c ≠ '\r') →
      (rest = [] ∨ ∃ c t, rest = c :: t ∧ ¬(c = ' ' ∨ c = '\t')) →
      segs.length + 1 ≤ fuel →
      scanLineF fuel (foldedVal a segs ++ '\r' :: '\n' :: rest) =
        some (foldedVal a segs, rest) := by
  intro segs
  induction segs with
  | nil =>
    intro a rest fuel ha _ hrest hfuel
    have : foldedVal a [] = a := by simp [foldedVal]
    rw [this]
    exact scanLineF_simple a rest fuel ha hrest (by omega)
  | cons b segs' ih =>
    intro a rest fuel ha hb hrest hfuel
    obtain ⟨f, rfl⟩ : ∃ f, fuel = f + 1 := ⟨fuel - 1, by omega⟩
    have hshape : foldedVal a (b :: segs') ++ '\r' :: '\n' :: rest =
        a ++ '\r' :: '\n' :: (foldedVal (' ' :: b) segs' ++ '\r' :: '\n' :: rest) := by
      simp [foldedVal]
    have hshape2 : foldedVal (' ' :: b) segs' = ' ' :: (b ++ (segs'.map
        (fun b => '\r' :: '\n' :: ' ' :: b)).flatten) := by
      simp [foldedVal]
    have hrec := ih (' ' :: b) rest f
      (by intro c hc
          simp at hc
          rcases hc with rfl | hc
          · decide
          · exact hb b (by simp) c hc)
      (fun b' hb' => hb b' (by simp [hb'])) hrest (by simp at hfuel; omega)
    rw [hshape]
    simp only [scanLineF, findCRLF_clean _ _ ha, hshape2]
    rw [← hshape2]
    simp only [hrec]
    simp [foldedVal]

/-- One header line consumed by the parse loop. -/
lemma parse_headersLoop_step (line rest : Str) (rem : Nat) (acc : List Hdr)
    (hl : ∀ c ∈ line, c ≠ '\r')
    (hr : rest = [] ∨ ∃ c t, rest = c :: t ∧ ¬(c = ' ' ∨ c = '\t'))
    (hlen : line.length < MAX_HEADER_LINE) (hne : line ≠ [])
    (n v : Str) (hsplit : splitColon line = some (n, v)) :
    parse_headersLoop (line ++ '\r' :: '\n' :: rest) (rem + 1) acc =
      parse_headersLoop rest rem ((c_trim n, c_trim v) :: acc) := by
  obtain ⟨c0, l', rfl⟩ : ∃ c0 l', line = c0 :: l' := by
    cases line with
    | nil => exact absurd rfl hne
    | cons c0 l' => exact ⟨c0, l', rfl⟩
  have hscan := scanLine_simple (c0 :: l') rest hl hr
  rw [show (c0 :: l') ++ '\r' :: '\n' :: rest = c0 :: (l' ++ '\r' :: '\n' :: rest) by simp] at hscan ⊢
  simp only [parse_headersLoop, hscan]
  have hlen' : ¬MAX_HEADER_LINE ≤ l'.length + 1 := by simpa using Nat.not_le.mpr hlen
  simp [hlen', hsplit]

/-- The empty line terminating the headers. -/
lemma parse_headersLoop_final (rem : Nat) (acc : List Hdr) :
    parse_headersLoop ['\r', '\n'] rem acc = some acc.reverse := by
  cases rem with
  | zero => rfl
  | succ r =>
    have hscan : scanLine ['\r', '\n'] = some ([], []) := by
      have := scanLineF_simple [] [] (['\r', '\n'].length + 1) (by simp) (Or.inl rfl) (by omega)
      simpa [scanLine] using this
    simp [parse_headersLoop, hscan]

/-- `c_trim` leaves `SP value` unchanged when the value starts and ends with
non-whitespace: the C in-place trim keeps leading whitespace. -/
lemma c_trim_space_cons (v : Str) (c0 : Char) (t : Str) (Y : Str) (cl : Char)
    (hv : v = c0 :: t) (hc0 : cIsSpace c0 = false)
    (hlast : v = Y ++ [cl]) (hcl : cIsSpace cl = false) :
    c_trim (' ' :: v) = ' ' :: v := by
  have hdrop : (' ' :: v).dropWhile cIsSpace = v := by
    rw [List.dropWhile_cons]
    simp only [show cIsSpace ' ' = true from rfl, if_true]
    rw [hv, List.dropWhile_cons, hc0]
    simp
  have htake : (' ' :: v).takeWhile cIsSpace = [' '] := by
    rw [List.takeWhile_cons]
    simp only [show cIsSpace ' ' = true from rfl, if_true]
    rw [hv, List.takeWhile_cons, hc0]
    simp
  have hrev : (v.reverse.dropWhile cIsSpace).reverse = v := by
    rw [hlast, List.reverse_append]
    simp only [List.reverse_cons, List.reverse_nil, List.nil_append, List.singleton_append,
      List.dropWhile_cons, hcl]
    simp
  rw [c_trim, hdrop]
  rw [if_neg (by rw [hv]; simp), htake, hrev]
  simp

/-- `trimBoth` strips exactly the leading space under the same conditions. -/
lemma trimBoth_space_cons (v : Str) (c0 : Char) (t : Str) (Y : Str) (cl : Char)
    (hv : v = c0 :: t) (hc0 : cIsSpace c0 = false)
    (hlast : v = Y ++ [cl]) (hcl : cIsSpace cl = false) :
    trimBoth (' ' :: v) = v := by
  have hdrop : (' ' :: v).dropWhile cIsSpace = v := by
    rw [List.dropWhile_cons]
    simp only [show cIsSpace ' ' = true from rfl, if_true]
    rw [hv, List.dropWhile_cons, hc0]
    simp
  have hrev : (v.reverse.dropWhile cIsSpace).reverse = v := by
    rw [hlast, List.reverse_append]
    simp only [List.reverse_cons, List.reverse_nil, List.nil_append, List.singleton_append,
      List.dropWhile_cons, hcl]
    simp
  rw [trimBoth, hdrop, hrev]

/-- A nonempty rendered parameter list ends with the closing quote. -/
lemma renderParams_ends_quote :
    ∀ (ps' : List (Str × Str)) (p : Str × Str), ∃ Y, renderParams (p :: ps') = Y ++ ['"'] := by
  intro ps'
  induction ps' with
  | nil =>
    intro p
    exact ⟨p.1 ++ '=' :: '"' :: p.2, by simp [renderParams, renderParam]⟩
  | cons q ps'' ih =>
    intro p
    obtain ⟨Y', hY'⟩ := ih q
    exact ⟨renderParam p ++ ',' :: ' ' :: Y', by simp [renderParams, hY']⟩

/-- A rendered challenge with parameters ends with the closing quote. -/
lemma renderChal_ends_quote (sch : Str) (p : Str × Str) (ps' : List (Str × Str)) :
    ∃ Y, renderChal sch (p :: ps') = Y ++ ['"'] := by
  obtain ⟨Y, hY⟩ := renderParams_ends_quote ps' p
  exact ⟨sch ++ ' ' :: Y, by simp [renderChal, hY]⟩

/-- The header-name prefix of a rendered `WWW-Authenticate` header. -/
lemma wwwAuth_split : ("WWW-Authenticate: ".data : Str) = "WWW-Authenticate".data ++ [':', ' '] := by
  decide

/-- `parse_headers` of a raw block holding one `WWW-Authenticate: v` header. -/
lemma parse_headers_wwwAuth1 (v : Str)
    (hvnoCR : ∀ c ∈ v, c ≠ '\r')
    (c0 : Char) (t : Str) (hvc0 : v = c0 :: t) (hc0 : cIsSpace c0 = false)
    (Y : Str) (cl : Char) (hvlast : v = Y ++ [cl]) (hcl : cIsSpace cl = false)
    (hvlen : v.length + 18 < MAX_HEADER_LINE) :
    parse_headers ("WWW-Authenticate: ".data ++ v ++ "\r\n\r\n".data) =
      some [("WWW-Authenticate".data, ' ' :: v)] := by
  have hnoCRlit : ∀ c ∈ ("WWW-Authenticate: ".data : Str), c ≠ '\r' := by decide
  have hnoCR : ∀ c ∈ ("WWW-Authenticate: ".data ++ v : Str), c ≠ '\r' := by
    intro c hc
    rcases List.mem_append.mp hc with h | h
    · exact hnoCRlit c h
    · exact hvnoCR c h
  have hnocolon : ∀ c ∈ ("WWW-Authenticate".data : Str), c ≠ ':' := by decide
  have hsplit : splitColon ("WWW-Authenticate: ".data ++ v) =
      some ("WWW-Authenticate".data, ' ' :: v) := by
    rw [wwwAuth_split, List.append_assoc]
    exact splitColon_clean _ _ hnocolon
  have hlen : ("WWW-Authenticate: ".data ++ v : Str).length < MAX_HEADER_LINE := by
    rw [List.length_append]
    have h18 : ("WWW-Authenticate: ".data : Str).length = 18 := rfl
    omega
  have hblock : ("WWW-Authenticate: ".data ++ v ++ "\r\n\r\n".data : Str) =
      ("WWW-Authenticate: ".data ++ v) ++ '\r' :: '\n' :: ['\r', '\n'] := by
    simp
  rw [parse_headers, hblock]
  rw [show (MAX_HEADERS : Nat) = 99 + 1 from rfl]
  rw [parse_headersLoop_step _ _ 99 [] hnoCR
        (Or.inr ⟨'\r', ['\n'], rfl, by decide⟩) hlen (by simp) _ _ hsplit]
  rw [parse_headersLoop_final]
  have hname : c_trim "WWW-Authenticate".data = "WWW-Authenticate".data := by decide
  rw [hname, c_trim_space_cons v c0 t Y cl hvc0 hc0 hvlast hcl]
  rfl

/-- `CheckAuthScheme` on a message with one `WWW-Authenticate` header: it
reduces to the challenge loop over the trimmed header value. -/
lemma CheckAuthScheme_msg1 (startLine v target : Str)
    (hsl : ∀ c ∈ startLine, c ≠ '\r')
    (hvnoCR : ∀ c ∈ v, c ≠ '\r')
    (c0 : Char) (t : Str) (hvc0 : v = c0 :: t) (hc0 : cIsSpace c0 = false)
    (Y : Str) (cl : Char) (hvlast : v = Y ++ [cl]) (hcl : cIsSpace cl = false)
    (hvlen : v.length + 18 < MAX_HEADER_LINE) :
    CheckAuthScheme (renderMsg1 startLine v) target =
      processChal target (v.length + 1) v (-10) [] := by
  have hmsg : parse_message (renderMsg1 startLine v) =
      some ("WWW-Authenticate: ".data ++ v ++ "\r\n\r\n".data) := by
    rw [renderMsg1]
    rw [show startLine ++ '\r' :: '\n' :: "WWW-Authenticate: ".data ++ v ++ "\r\n\r\n".data =
      startLine ++ '\r' :: '\n' :: ("WWW-Authenticate: ".data ++ v ++ "\r\n\r\n".data) by simp]
    rw [parse_message, findCRLF_clean _ _ hsl]
    rfl
  have hph := parse_headers_wwwAuth1 v hvnoCR c0 t hvc0 hc0 Y cl hvlast hcl hvlen
  have hsub : hasSubstr "WWW-Authenticate".data "WWW-Authenticate".data = true := by decide
  simp only [CheckAuthScheme, hmsg, hph, List.foldl_cons, List.foldl_nil, hsub, if_true]
  rw [trimBoth_space_cons v c0 t Y cl hvc0 hc0 hvlast hcl]

/-- `parse_headers` of a raw block holding two `WWW-Authenticate` headers. -/
lemma parse_headers_wwwAuth2 (v1 v2 : Str)
    (hv1noCR : ∀ c ∈ v1, c ≠ '\r') (hv2noCR : ∀ c ∈ v2, c ≠ '\r')
    (c1 : Char) (t1 : Str) (hv1c : v1 = c1 :: t1) (hc1 : cIsSpace c1 = false)
    (Y1 : Str) (cl1 : Char) (hv1last : v1 = Y1 ++ [cl1]) (hcl1 : cIsSpace cl1 = false)
    (c2 : Char) (t2 : Str) (hv2c : v2 = c2 :: t2) (hc2 : cIsSpace c2 = false)
    (Y2 : Str) (cl2 : Char) (hv2last : v2 = Y2 ++ [cl2]) (hcl2 : cIsSpace cl2 = false)
    (hv1len : v1.length + 18 < MAX_HEADER_LINE) (hv2len : v2.length + 18 < MAX_HEADER_LINE) :
    parse_headers ("WWW-Authenticate: ".data ++ v1 ++ '\r' :: '\n' ::
        ("WWW-Authenticate: ".data ++ v2 ++ "\r\n\r\n".data)) =
      some [("WWW-Authenticate".data, ' ' :: v1), ("WWW-Authenticate".data, ' ' :: v2)] := by
  have hnoCRlit : ∀ c ∈ ("WWW-Authenticate: ".data : Str), c ≠ '\r' := by decide
  have hnoCR1 : ∀ c ∈ ("WWW-Authenticate: ".data ++ v1 : Str), c ≠ '\r' := by
    intro c hc
    rcases List.mem_append.mp hc with h | h
    · exact hnoCRlit c h
    · exact hv1noCR c h
  have hnoCR2 : ∀ c ∈ ("WWW-Authenticate: ".data ++ v2 : Str), c ≠ '\r' := by
    intro c hc
    rcases List.mem_append.mp hc with h | h
    · exact hnoCRlit c h
    · exact hv2noCR c h
  have hnocolon : ∀ c ∈ ("WWW-Authenticate".data : Str), c ≠ ':' := by decide
  have hsplit1 : splitColon ("WWW-Authenticate: ".data ++ v1) =
      some ("WWW-Authenticate".data, ' ' :: v1) := by
    rw [wwwAuth_split, List.append_assoc]
    exact splitColon_clean _ _ hnocolon
  have hsplit2 : splitColon ("WWW-Authenticate: ".data ++ v2) =
      some ("WWW-Authenticate".data, ' ' :: v2) := by
    rw [wwwAuth_split, List.append_assoc]
    exact splitColon_clean _ _ hnocolon
  have hlen1 : ("WWW-Authenticate: ".data ++ v1 : Str).length < MAX_HEADER_LINE := by
    rw [List.length_append]
    have h18 : ("WWW-Authenticate: ".data : Str).length = 18 := rfl
    omega
  have hlen2 : ("WWW-Authenticate: ".data ++ v2 : Str).length < MAX_HEADER_LINE := by
    rw [List.length_append]
    have h18 : ("WWW-Authenticate: ".data : Str).length = 18 := rfl
    omega
  have hblock : ("WWW-Authenticate: ".data ++ v1 ++ '\r' :: '\n' ::
        ("WWW-Authenticate: ".data ++ v2 ++ "\r\n\r\n".data) : Str) =
      ("WWW-Authenticate: ".data ++ v1) ++ '\r' :: '\n' ::
        ("WWW-Authenticate: ".data ++ v2 ++ "\r\n\r\n".data) := by
    simp
  have hblock2 : ("WWW-Authenticate: ".data ++ v2 ++ "\r\n\r\n".data : Str) =
      ("WWW-Authenticate: ".data ++ v2) ++ '\r' :: '\n' :: ['\r', '\n'] := by
    simp
  rw [parse_headers, hblock]
  rw [show (MAX_HEADERS : Nat) = 99 + 1 from rfl]
  rw [parse_headersLoop_step _ _ 99 [] hnoCR1
        (Or.inr ⟨'W', _, by rw [hblock2]; rw [wwwAuth_split]; simp; rfl, by decide⟩)
        hlen1 (by simp) _ _ hsplit1]
  rw [hblock2]
  rw [show (99 : Nat) = 98 + 1 from rfl]
  rw [parse_headersLoop_step _ _ 98 _ hnoCR2
        (Or.inr ⟨'\r', ['\n'], rfl, by decide⟩) hlen2 (by simp) _ _ hsplit2]
  rw [parse_headersLoop_final]
  have hname : c_trim "WWW-Authenticate".data = "WWW-Authenticate".data := by decide
  rw [hname, c_trim_space_cons v1 c1 t1 Y1 cl1 hv1c hc1 hv1last hcl1,
      c_trim_space_cons v2 c2 t2 Y2 cl2 hv2c hc2 hv2last hcl2]
  rfl

/-- `CheckAuthScheme` on a message with two `WWW-Authenticate` header
instances: the challenge loop runs over the first value and then, keeping
return code and output, over the second. -/
lemma CheckAuthScheme_msg2 (startLine v1 v2 target : Str)
    (hsl : ∀ c ∈ startLine, c ≠ '\r')
    (hv1noCR : ∀ c ∈ v1, c ≠ '\r') (hv2noCR : ∀ c ∈ v2, c ≠ '\r')
    (c1 : Char) (t1 : Str) (hv1c : v1 = c1 :: t1) (hc1 : cIsSpace c1 = false)
    (Y1 : Str) (cl1 : Char) (hv1last : v1 = Y1 ++ [cl1]) (hcl1 : cIsSpace cl1 = false)
    (c2 : Char) (t2 : Str) (hv2c : v2 = c2 :: t2) (hc2 : cIsSpace c2 = false)
    (Y2 : Str) (cl2 : Char) (hv2last : v2 = Y2 ++ [cl2]) (hcl2 : cIsSpace cl2 = false)
    (hv1len : v1.length + 18 < MAX_HEADER_LINE) (hv2len : v2.length + 18 < MAX_HEADER_LINE) :
    CheckAuthScheme (renderMsg2 startLine v1 v2) target =
      processChal target (v2.length + 1) v2
        (processChal target (v1.length + 1) v1 (-10) []).1
        (processChal target (v1.length + 1) v1 (-10) []).2 := by
  have hmsg : parse_message (renderMsg2 startLine v1 v2) =
      some ("WWW-Authenticate: ".data ++ v1 ++ '\r' :: '\n' ::
        ("WWW-Authenticate: ".data ++ v2 ++ "\r\n\r\n".data)) := by
    rw [renderMsg2]
    rw [show startLine ++ '\r' :: '\n' :: "WWW-Authenticate: ".data ++ v1 ++
        '\r' :: '\n' :: "WWW-Authenticate: ".data ++ v2 ++ "\r\n\r\n".data =
      startLine ++ '\r' :: '\n' :: ("WWW-Authenticate: ".data ++ v1 ++
        '\r' :: '\n' :: ("WWW-Authenticate: ".data ++ v2 ++ "\r\n\r\n".data)) by simp]
    rw [parse_message, findCRLF_clean _ _ hsl]
    rfl
  have hph := parse_headers_wwwAuth2 v1 v2 hv1noCR hv2noCR c1 t1 hv1c hc1 Y1 cl1 hv1last hcl1
      c2 t2 hv2c hc2 Y2 cl2 hv2last hcl2 hv1len hv2len
  have hsub : hasSubstr "WWW-Authenticate".data "WWW-Authenticate".data = true := by decide
  simp only [CheckAuthScheme, hmsg, hph, List.foldl_cons, List.foldl_nil, hsub, if_true]
  rw [trimBoth_space_cons v1 c1 t1 Y1 cl1 hv1c hc1 hv1last hcl1,
      trimBoth_space_cons v2 c2 t2 Y2 cl2 hv2c hc2 hv2last hcl2]

/-- Rendered parameter lists contain no carriage return. -/
lemma renderParams_noCR : ∀ ps : List (Str × Str), wfParams ps = true →
    ∀ c ∈ renderParams ps, c ≠ '\r' := by
  intro ps
  induction ps with
  | nil => intro _ c hc; simp [renderParams] at hc
  | cons p ps' ih =>
    intro hw c hc
    obtain ⟨hs1, -, -, hs2, -, hw'⟩ := wfParams_cons hw
    have hparam : c ∈ renderParam p → c ≠ '\r' := by
      intro hcp heq
      subst heq
      rcases List.mem_append.mp hcp with h | h
      · rcases List.mem_append.mp h with h2 | h2
        · exact absurd rfl (alnumB_ne_delims (simpleStr_mem hs1 h2)).1
        · rcases List.mem_cons.mp h2 with h1 | h2
          · exact absurd h1 (by decide)
          · rcases List.mem_cons.mp h2 with h1 | h2
            · exact absurd h1 (by decide)
            · exact absurd rfl (alnumB_ne_delims (simpleStr_mem hs2 h2)).1
      · simp at h
    cases ps' with
    | nil =>
      have hr : renderParams [p] = renderParam p := rfl
      rw [hr] at hc
      exact hparam hc
    | cons q ps'' =>
      have hr : renderParams (p :: q :: ps'') =
          renderParam p ++ ',' :: ' ' :: renderParams (q :: ps'') := rfl
      rw [hr] at hc
      rcases List.mem_append.mp hc with h | h
      · exact hparam h
      · rcases List.mem_cons.mp h with h1 | h
        · subst h1; decide
        · rcases List.mem_cons.mp h with h1 | h
          · subst h1; decide
          · exact ih hw' c h

/-- Shape facts of a rendered challenge needed by the header-parsing
lemmas: no CR, an alphanumeric first character, a closing-quote last
character. -/
lemma renderChal_facts (sch : Str) (p : Str × Str) (ps' : List (Str × Str))
    (hs : simpleStr sch = true) (hn : sch ≠ []) (hw : wfParams (p :: ps') = true) :
    (∀ c ∈ renderChal sch (p :: ps'), c ≠ '\r') ∧
    (∃ c0 t, renderChal sch (p :: ps') = c0 :: t ∧ cIsSpace c0 = false) ∧
    (∃ Y cl, renderChal sch (p :: ps') = Y ++ [cl] ∧ cIsSpace cl = false) := by
  refine ⟨?_, ?_, ?_⟩
  · intro c hc
    rw [renderChal] at hc
    rcases List.mem_append.mp hc with h | h
    · exact (alnumB_ne_delims (simpleStr_mem hs h)).1
    · simp only [List.mem_cons] at h
      rcases h with rfl | h
      · decide
      · exact renderParams_noCR _ hw c h
  · obtain ⟨cs, ts, hcs⟩ : ∃ cs ts, sch = cs :: ts := by
      cases sch with
      | nil => exact absurd rfl hn
      | cons cs ts => exact ⟨cs, ts, rfl⟩
    refine ⟨cs, ts ++ ' ' :: renderParams (p :: ps'), by rw [renderChal, hcs]; simp, ?_⟩
    exact alnumB_not_space (simpleStr_mem hs (by rw [hcs]; simp))
  · obtain ⟨Y, hY⟩ := renderChal_ends_quote sch p ps'
    exact ⟨Y, '"', hY, by decide⟩

/-- C2: whenever the target scheme is not the first challenge — because it
follows another scheme's parameters in the same `WWW-Authenticate` value
(the bare scheme token with no following `=` starts the new challenge), or
because it sits in a second header instance, in either instance order —
`CheckAuthScheme` still finds it and reports success (return code 0).
Schemes are well-formed tokens, each challenge carries a nonempty
well-formed quoted parameter list, and the rendered header lines respect
the line-length cap. -/
theorem C2_resolver_finds_nonfirst_scheme (startLine sch1 sch2 : Str)
    (p1 : Str × Str) (ps1' : List (Str × Str)) (p2 : Str × Str) (ps2' : List (Str × Str))
    (hsl : ∀ c ∈ startLine, c ≠ '\r')
    (hs1 : simpleStr sch1 = true) (hn1 : sch1 ≠ []) (hl1 : sch1.length ≤ 510)
    (hs2 : simpleStr sch2 = true) (hn2 : sch2 ≠ []) (hl2 : sch2.length ≤ 510)
    (hw1 : wfParams (p1 :: ps1') = true) (hw2 : wfParams (p2 :: ps2') = true)
    (hne12 : sch1 ≠ sch2)
    (hlenPair : (renderChal sch1 (p1 :: ps1') ++ ',' :: ' ' ::
        renderChal sch2 (p2 :: ps2')).length + 18 < MAX_HEADER_LINE)
    (hlen1 : (renderChal sch1 (p1 :: ps1')).length + 18 < MAX_HEADER_LINE)
    (hlen2 : (renderChal sch2 (p2 :: ps2')).length + 18 < MAX_HEADER_LINE) :
    (CheckAuthScheme (renderMsg1 startLine
        (renderChal sch1 (p1 :: ps1') ++ ',' :: ' ' :: renderChal sch2 (p2 :: ps2')))
      sch2).1 = 0 ∧
    (CheckAuthScheme (renderMsg2 startLine
        (renderChal sch1 (p1 :: ps1')) (renderChal sch2 (p2 :: ps2'))) sch2).1 = 0 ∧
    (CheckAuthScheme (renderMsg2 startLine
        (renderChal sch2 (p2 :: ps2')) (renderChal sch1 (p1 :: ps1'))) sch2).1 = 0 := by
  obtain ⟨hcr1, ⟨c01, t1, hc01, hsp1⟩, ⟨Y1, cl1, hY1, hscl1⟩⟩ :=
    renderChal_facts sch1 p1 ps1' hs1 hn1 hw1
  obtain ⟨hcr2, ⟨c02, t2, hc02, hsp2⟩, ⟨Y2, cl2, hY2, hscl2⟩⟩ :=
    renderChal_facts sch2 p2 ps2' hs2 hn2 hw2
  refine ⟨?_, ?_, ?_⟩
  · -- one header value: "sch1 params1, sch2 params2"
    set v := renderChal sch1 (p1 :: ps1') ++ ',' :: ' ' :: renderChal sch2 (p2 :: ps2') with hv
    have hvnoCR : ∀ c ∈ v, c ≠ '\r' := by
      intro c hc
      rw [hv] at hc
      rcases List.mem_append.mp hc with h | h
      · exact hcr1 c h
      · simp only [List.mem_cons] at h
        rcases h with rfl | h
        · decide
        · rcases h with rfl | h
          · decide
          · exact hcr2 c h
    have hvc0 : v = c01 :: (t1 ++ ',' :: ' ' :: renderChal sch2 (p2 :: ps2')) := by
      rw [hv, hc01]; simp
    have hvlast : v = (renderChal sch1 (p1 :: ps1') ++ ',' :: ' ' :: Y2) ++ [cl2] := by
      rw [hv, hY2]; simp
    have h := CheckAuthScheme_msg1 startLine v sch2 hsl hvnoCR _ _ hvc0 hsp1 _ _ hvlast hscl2
      hlenPair
    rw [h]
    have hvlen1 : 1 ≤ v.length := by rw [hvc0]; simp
    rw [show v.length + 1 = (v.length - 1) + 2 by omega]
    rw [hv] at *
    rw [processChal_pair sch2 sch1 sch2 (p1 :: ps1') (p2 :: ps2') (-10) [] _
      hs1 hn1 hl1 hs2 hn2 hl2 hw1 (by simp) hw2 (by simp)]
    simp
  · have h := CheckAuthScheme_msg2 startLine
      (renderChal sch1 (p1 :: ps1')) (renderChal sch2 (p2 :: ps2')) sch2 hsl hcr1 hcr2
      _ _ hc01 hsp1 _ _ hY1 hscl1 _ _ hc02 hsp2 _ _ hY2 hscl2 hlen1 hlen2
    rw [h]
    rw [processChal_single sch2 sch1 (p1 :: ps1') (-10) [] _ hs1 hn1 hl1 hw1 (by simp)]
    rw [processChal_single sch2 sch2 (p2 :: ps2') _ _ _ hs2 hn2 hl2 hw2 (by simp)]
    simp
  · have h := CheckAuthScheme_msg2 startLine
      (renderChal sch2 (p2 :: ps2')) (renderChal sch1 (p1 :: ps1')) sch2 hsl hcr2 hcr1
      _ _ hc02 hsp2 _ _ hY2 hscl2 _ _ hc01 hsp1 _ _ hY1 hscl1 hlen2 hlen1
    rw [h]
    rw [processChal_single sch2 sch2 (p2 :: ps2') (-10) [] _ hs2 hn2 hl2 hw2 (by simp)]
    rw [processChal_single sch2 sch1 (p1 :: ps1') _ _ _ hs1 hn1 hl1 hw1 (by simp)]
    simp [hne12]

/-- Witness for C2: `Digest realm="r"` followed by `Basic realm="x"` in one
value, and the two-instance messages in both orders; the query for
`Basic` succeeds each time. -/
theorem C2_resolver_finds_nonfirst_scheme_witness :
    (CheckAuthScheme (renderMsg1 "RTSP/1.0 401 Unauthorized".data
        (renderChal "Digest".data [("realm".data, "r".data)] ++ ',' :: ' ' ::
         renderChal "Basic".data [("realm".data, "x".data)]))
      "Basic".data).1 = 0 ∧
    (CheckAuthScheme (renderMsg2 "RTSP/1.0 401 Unauthorized".data
        (renderChal "Digest".data [("realm".data, "r".data)])
        (renderChal "Basic".data [("realm".data, "x".data)])) "Basic".data).1 = 0 ∧
    (CheckAuthScheme (renderMsg2 "RTSP/1.0 401 Unauthorized".data
        (renderChal "Basic".data [("realm".data, "x".data)])
        (renderChal "Digest".data [("realm".data, "r".data)])) "Basic".data).1 = 0 :=
  C2_resolver_finds_nonfirst_scheme "RTSP/1.0 401 Unauthorized".data
    "Digest".data "Basic".data ("realm".data, "r".data) [] ("realm".data, "x".data) []
    (by decide) (by decide) (by decide) (by decide) (by decide) (by decide) (by decide)
    (by decide) (by decide) (by decide) (by decide) (by decide) (by decide)

/-- C4 (amended): only the SIP Digest path enforces the configured realm.
`RtspPlayerDigestAuthorization` refuses (returns `-1`, no header) exactly
when the configured realm differs from the received one and produces the
header when they agree — the SIP INVITE/BYE 401 handlers pass the
configured `sip_realm` here.  The RTSP `DESCRIBE` 401 path, however,
performs no realm comparison at all: for *every* received realm `R`, a
`Basic realm="R"` challenge yields a Basic Authorization header built
from the configured username and password (and the RTSP Digest path
passes the received realm as both arguments, making the comparison
vacuous). -/
theorem C4_amended_realm_check_only_on_sip_digest_path (md5 base64 : Str → Str)
    (cfg_username cfg_password cfg_realm nonce : Str) (nc cnonce qop : Option Str)
    (uri rx_realm method : Str) (isSIP : Bool)
    (startLine username password hostport url R : Str)
    (hsl : ∀ c ∈ startLine, c ≠ '\r')
    (hsR : simpleStr R = true) (hRlen : R.length ≤ 510) :
    (cfg_realm ≠ rx_realm →
      RtspPlayerDigestAuthorization md5 cfg_username cfg_password cfg_realm nonce
        nc cnonce qop uri rx_realm method isSIP = (-1, none)) ∧
    (cfg_realm = rx_realm →
      (RtspPlayerDigestAuthorization md5 cfg_username cfg_password cfg_realm nonce
        nc cnonce qop uri rx_realm method isSIP).1 = 1 ∧
      (RtspPlayerDigestAuthorization md5 cfg_username cfg_password cfg_realm nonce
        nc cnonce qop uri rx_realm method isSIP).2.isSome = true) ∧
    (GetAuthSchemeBasic
        (renderMsg1 startLine (renderChal "Basic".data [("realm".data, R)])) =
      some ⟨R⟩) ∧
    ((rtspDescribe401 md5 base64
        (renderMsg1 startLine (renderChal "Basic".data [("realm".data, R)]))
        username password hostport url).authorization =
      some (RtspPlayerBasicAuthorization base64 username password)) := by
  have hwf : wfParams [("realm".data, R)] = true := by
    simp [wfParams, wfTok, wfVal, hsR, hRlen]
    decide
  have hcheck : CheckAuthScheme
      (renderMsg1 startLine (renderChal "Basic".data [("realm".data, R)])) "Basic".data =
      (0, [("realm".data, R)]) := by
    obtain ⟨hcr, ⟨c0, t, hc0, hsp⟩, ⟨Y, cl, hY, hscl⟩⟩ :=
      renderChal_facts "Basic".data ("realm".data, R) [] (by decide) (by decide) hwf
    have hvlen : (renderChal "Basic".data [("realm".data, R)]).length + 18 < MAX_HEADER_LINE := by
      have : (renderChal "Basic".data [("realm".data, R)]).length = 14 + R.length := by
        simp [renderChal, renderParams, renderParam]
        omega
      rw [this]
      simp only [MAX_HEADER_LINE]
      omega
    rw [CheckAuthScheme_msg1 startLine _ "Basic".data hsl hcr c0 t hc0 hsp Y cl hY hscl hvlen]
    rw [processChal_single "Basic".data "Basic".data [("realm".data, R)] (-10) [] _
      (by decide) (by decide) (by decide) hwf (by simp)]
    simp
  have hbasic : GetAuthSchemeBasic
      (renderMsg1 startLine (renderChal "Basic".data [("realm".data, R)])) = some ⟨R⟩ := by
    rw [GetAuthSchemeBasic, hcheck]
    simp [lastVal]
  refine ⟨?_, ?_, hbasic, ?_⟩
  · intro hne
    simp [RtspPlayerDigestAuthorization, hne]
  · intro heq
    simp [RtspPlayerDigestAuthorization, heq]
  · rw [rtspDescribe401, hbasic]

/-- `splitColon` fails on a colon-free line. -/
lemma splitColon_none : ∀ l : Str, (∀ c ∈ l, c ≠ ':') → splitColon l = none := by
  intro l
  induction l with
  | nil => intro _; rfl
  | cons c r ih =>
    intro h
    have hc : c ≠ ':' := h c (by simp)
    simp [splitColon, hc, ih (fun d hd => h d (by simp [hd]))]

/-- A header line with no colon is a hard parse failure. -/
lemma parse_headersLoop_nocolon (line rest : Str) (rem : Nat) (acc : List Hdr)
    (hl : ∀ c ∈ line, c ≠ '\r')
    (hr : rest = [] ∨ ∃ c t, rest = c :: t ∧ ¬(c = ' ' ∨ c = '\t'))
    (hlen : line.length < MAX_HEADER_LINE) (hne : line ≠ [])
    (hnc : ∀ c ∈ line, c ≠ ':') :
    parse_headersLoop (line ++ '\r' :: '\n' :: rest) (rem + 1) acc = none := by
  obtain ⟨c0, l', rfl⟩ : ∃ c0 l', line = c0 :: l' := by
    cases line with
    | nil => exact absurd rfl hne
    | cons c0 l' => exact ⟨c0, l', rfl⟩
  have hscan := scanLine_simple (c0 :: l') rest hl hr
  rw [show (c0 :: l') ++ '\r' :: '\n' :: rest = c0 :: (l' ++ '\r' :: '\n' :: rest) by simp]
    at hscan ⊢
  simp only [parse_headersLoop, hscan]
  have hlen' : ¬MAX_HEADER_LINE ≤ l'.length + 1 := by simpa using Nat.not_le.mpr hlen
  simp [hlen', splitColon_none _ hnc]

/-- A header line at or beyond the line-length cap is a hard parse failure. -/
lemma parse_headersLoop_toolong (line rest : Str) (rem : Nat) (acc : List Hdr)
    (hl : ∀ c ∈ line, c ≠ '\r')
    (hr : rest = [] ∨ ∃ c t, rest = c :: t ∧ ¬(c = ' ' ∨ c = '\t'))
    (hlen : MAX_HEADER_LINE ≤ line.length) :
    parse_headersLoop (line ++ '\r' :: '\n' :: rest) (rem + 1) acc = none := by
  obtain ⟨c0, l', rfl⟩ : ∃ c0 l', line = c0 :: l' := by
    cases line with
    | nil => simp [MAX_HEADER_LINE] at hlen
    | cons c0 l' => exact ⟨c0, l', rfl⟩
  have hscan := scanLine_simple (c0 :: l') rest hl hr
  rw [show (c0 :: l') ++ '\r' :: '\n' :: rest = c0 :: (l' ++ '\r' :: '\n' :: rest) by simp]
    at hscan ⊢
  simp only [parse_headersLoop, hscan]
  have hlen' : MAX_HEADER_LINE ≤ l'.length + 1 := by simpa using hlen
  simp [hlen']

/-- Unfolding of the identical-header block. -/
lemma nHdrBlock_succ (n : Nat) :
    nHdrBlock (n + 1) = "A: b".data ++ '\r' :: '\n' :: nHdrBlock n := by
  have h : ("A: b\r\n".data : Str) = "A: b".data ++ ['\r', '\n'] := by decide
  simp [nHdrBlock, List.replicate_succ, h]

/-- The identical-header block starts with a non-whitespace character. -/
lemma nHdrBlock_head (n : Nat) :
    ∃ c t, nHdrBlock n = c :: t ∧ ¬(c = ' ' ∨ c = '\t') := by
  cases n with
  | zero => exact ⟨'\r', ['\n'], by simp [nHdrBlock], by decide⟩
  | succ m =>
    rw [nHdrBlock_succ]
    exact ⟨'A', _, rfl, by decide⟩

/-- The header-count cap truncates silently: with `rem` slots left and at
least `rem` headers in the block, the loop returns success with exactly
`rem` more headers. -/
lemma parse_headersLoop_nHdr :
    ∀ (rem n : Nat) (acc : List Hdr), rem ≤ n →
      parse_headersLoop (nHdrBlock n) rem acc =
        some (acc.reverse ++ List.replicate rem ("A".data, " b".data)) := by
  intro rem
  induction rem with
  | zero =>
    intro n acc _
    obtain ⟨c, t, hct, -⟩ := nHdrBlock_head n
    rw [hct]
    simp [parse_headersLoop]
  | succ r ih =>
    intro n acc hle
    obtain ⟨m, rfl⟩ : ∃ m, n = m + 1 := ⟨n - 1, by omega⟩
    rw [nHdrBlock_succ]
    rw [parse_headersLoop_step "A: b".data (nHdrBlock m) r acc (by decide)
      (Or.inr (nHdrBlock_head m)) (by decide) (by decide) "A".data " b".data (by decide)]
    rw [show c_trim "A".data = "A".data from by decide, show c_trim " b".data = " b".data
      from by decide]
    rw [ih m _ (by omega)]
    simp [List.replicate_succ]

/-- C5 (amended): a header line that reaches the line-length cap, or has no
colon, is a hard parse failure (`-1`); but exceeding the maximum header
count is *not* a failure: with `100 ≤ n` headers present, `parse_headers`
succeeds and silently returns only the first 100. -/
theorem C5_amended_failures_and_silent_cap (line rest : Str) (n : Nat)
    (hl : ∀ c ∈ line, c ≠ '\r')
    (hr : rest = [] ∨ ∃ c t, rest = c :: t ∧ ¬(c = ' ' ∨ c = '\t')) :
    (line.length < MAX_HEADER_LINE → line ≠ [] → (∀ c ∈ line, c ≠ ':') →
      parse_headers (line ++ '\r' :: '\n' :: rest) = none) ∧
    (MAX_HEADER_LINE ≤ line.length →
      parse_headers (line ++ '\r' :: '\n' :: rest) = none) ∧
    (100 ≤ n →
      parse_headers (nHdrBlock n) = some (List.replicate 100 ("A".data, " b".data))) := by
  refine ⟨?_, ?_, ?_⟩
  · intro hlen hne hnc
    rw [parse_headers, show (MAX_HEADERS : Nat) = 99 + 1 from rfl]
    exact parse_headersLoop_nocolon line rest 99 [] hl hr hlen hne hnc
  · intro hlen
    rw [parse_headers, show (MAX_HEADERS : Nat) = 99 + 1 from rfl]
    exact parse_headersLoop_toolong line rest 99 [] hl hr hlen
  · intro hn
    rw [parse_headers]
    rw [parse_headersLoop_nHdr MAX_HEADERS n [] hn]
    rfl

/-- Witness for C5: the failing line `abc`, an overlong line of 1024 `x`s,
and a block of 150 headers that is silently truncated to 100. -/
theorem C5_amended_failures_and_silent_cap_witness :
    parse_headers ("abc".data ++ '\r' :: '\n' :: []) = none ∧
    parse_headers (List.replicate 1024 'x' ++ '\r' :: '\n' :: []) = none ∧
    parse_headers (nHdrBlock 150) = some (List.replicate 100 ("A".data, " b".data)) := by
  have h1 := C5_amended_failures_and_silent_cap "abc".data [] 150 (by decide) (Or.inl rfl)
  have h2 := C5_amended_failures_and_silent_cap (List.replicate 1024 'x') [] 150
    (by intro c hc; rw [List.eq_of_mem_replicate hc]; decide) (Or.inl rfl)
  exact ⟨h1.1 (by decide) (by decide) (by decide), h2.2.1 (by simp [MAX_HEADER_LINE]),
    h1.2.2 (by omega)⟩

/-- Witness for C4: concrete mismatched realms fail the SIP Digest path,
matched realms succeed, and the RTSP Basic resolver extracts a foreign
realm without any comparison. -/
theorem C4_amended_realm_check_only_on_sip_digest_path_witness :
    RtspPlayerDigestAuthorization (fun _ => "00000000000000000000000000000000".data)
      "u".data "p".data "mine".data "n".data none none none
      "uri".data "other".data "m".data true = (-1, none) ∧
    (RtspPlayerDigestAuthorization (fun _ => "00000000000000000000000000000000".data)
      "u".data "p".data "r".data "n".data none none none
      "uri".data "r".data "m".data true).1 = 1 ∧
    GetAuthSchemeBasic (renderMsg1 "RTSP/1.0 401 U".data
      (renderChal "Basic".data [("realm".data, "other".data)])) = some ⟨"other".data⟩ := by
  have h1 := C4_amended_realm_check_only_on_sip_digest_path
    (fun _ => "00000000000000000000000000000000".data) (fun s => s)
    "u".data "p".data "mine".data "n".data none none none
    "uri".data "other".data "m".data true
    "RTSP/1.0 401 U".data "u".data "p".data "h".data "/".data "other".data
    (by decide) (by decide) (by decide)
  have h2 := C4_amended_realm_check_only_on_sip_digest_path
    (fun _ => "00000000000000000000000000000000".data) (fun s => s)
    "u".data "p".data "r".data "n".data none none none
    "uri".data "r".data "m".data true
    "RTSP/1.0 401 U".data "u".data "p".data "h".data "/".data "x".data
    (by decide) (by decide) (by decide)
  exact ⟨h1.1 (by decide), (h2.2.1 rfl).1, h1.2.2.1⟩

/-- The rtpmap table scan resolves one slot per *matching row*: it walks the
whole table without stopping at the first hit, writing every row whose name
is a case-insensitive prefix-match of the token into consecutive slots. -/
lemma scanMimeTable_filter : ∀ (table : List MimeEntry) (tok : Str) (pl : Int)
    (fmts : List SDPFormat) (all n : Nat),
    scanMimeTable table tok pl fmts all n =
      (setSlots pl fmts n (table.filter (fun e => ciStarts e.name tok)),
       orFormats all (table.filter (fun e => ciStarts e.name tok)),
       n + (table.filter (fun e => ciStarts e.name tok)).length) := by
  intro table
  induction table with
  | nil => intro tok pl fmts all n; simp [scanMimeTable, setSlots, orFormats]
  | cons e rest ih =>
    intro tok pl fmts all n
    by_cases h : ciStarts e.name tok = true
    · simp only [scanMimeTable, h, if_true, List.filter_cons, ih, setSlots, orFormats]
      simp [Prod.ext_iff]
      omega
    · simp only [scanMimeTable, h, if_false, List.filter_cons, ih, Bool.false_eq_true]

/-- C8 (amended): for every `a=rtpmap` token, the codec-table scan attaches
the payload number and resolved format to one slot per *matching table row*
(case-insensitive prefix match), in table order, starting at the next
unfilled slot — rather than to exactly one slot per line: a token that
prefixes several rows fills several consecutive slots. -/
theorem C8_amended_one_slot_per_matching_row (tok : Str) (pl : Int)
    (fmts : List SDPFormat) (all n : Nat) :
    scanMimeTable mimeTypes tok pl fmts all n =
      (setSlots pl fmts n (matchingRows tok), orFormats all (matchingRows tok),
       n + (matchingRows tok).length) := by
  rw [matchingRows]
  exact scanMimeTable_filter mimeTypes tok pl fmts all n

/-- C7 (amended): on a 200 to INVITE the peer tag is learned (only outside a
dialog), the dialog is established, the ACK goes out with the freshly
generated branch, and the answer SDP is parsed.  If the answer's audio
format count is not exactly 1 transmission stays disabled; but when it is
exactly 1, transmission is enabled and the RTP destination connected to
the answered peer port *regardless* of whether the answered format matches
the offered one — a mismatch is only logged. -/
theorem C7_amended_mismatch_logged_but_tx_enabled
    (st : SipPlayerSt) (buffer : Str) (audioFormat : Nat) (newBranch : Str) (a : SDPMedia)
    (hlen : GetResponseLen buffer ≠ 0)
    (hct : CheckHeaderValue buffer (GetResponseLen buffer)
      "Content-Type".data "application/sdp".data = true)
    (hcl : ¬((buffer.length : Int) - GetResponseLen buffer <
      GetHeaderValueInt buffer (GetResponseLen buffer) "Content-Length".data))
    (ha : (CreateSDP true (buffer.drop (GetResponseLen buffer))).audio = some a) :
    (a.num ≠ 1 →
      sipInvite2xx200 st buffer audioFormat newBranch =
        { player := { in_a_dialog := true
                      peer_tag := SipSetPeerTag st.in_a_dialog st.peer_tag buffer buffer.length
                      branch_id := newBranch, cseqInvite := st.cseqInvite
                      cseqAck := st.cseqInvite - 1 }
          ackSent := true, ackBranch := newBranch, enable_sip_tx := false
          rtpDst := none, sdpParsed := true, mismatchLogged := false }) ∧
    (a.num = 1 →
      sipInvite2xx200 st buffer audioFormat newBranch =
        { player := { in_a_dialog := true
                      peer_tag := SipSetPeerTag st.in_a_dialog st.peer_tag buffer buffer.length
                      branch_id := newBranch, cseqInvite := st.cseqInvite
                      cseqAck := st.cseqInvite - 1 }
          ackSent := true, ackBranch := newBranch, enable_sip_tx := true
          rtpDst := some a.peer_media_port, sdpParsed := true
          mismatchLogged := (a.formats.getD 0 default).format ≠ audioFormat }) := by
  constructor <;> intro h
  · simp only [sipInvite2xx200, if_neg hlen, hct, not_true, if_neg hcl, ha]
    simp [h]
  · simp only [sipInvite2xx200, if_neg hlen, hct, not_true, if_neg hcl, ha]
    simp [h]

/-- Witness for C7: a concrete 200 response answering PCMA when ULAW was
offered still comes out with transmission enabled and the RTP destination
set, with only the mismatch flag recorded. -/
theorem C7_amended_mismatch_logged_but_tx_enabled_witness :
    sipInvite2xx200 ⟨false, [], "old".data, 2, 1⟩
      "SIP/2.0 200 OK\r\nTo: <sip:u@h>;tag=ptag\r\nContent-Type: application/sdp\r\nContent-Length: 10\r\n\r\nv=0\r\nm=audio 4000 RTP/AVP 8\r\na=rtpmap:8 PCMA/8000\r\n".data
      AST_FORMAT_ULAW "fresh".data =
      { player := { in_a_dialog := true, peer_tag := "ptag".data
                    branch_id := "fresh".data, cseqInvite := 2, cseqAck := 1 }
        ackSent := true, ackBranch := "fresh".data, enable_sip_tx := true
        rtpDst := some 4000, sdpParsed := true, mismatchLogged := true } := by
  rw [(C7_amended_mismatch_logged_but_tx_enabled ⟨false, [], "old".data, 2, 1⟩
    "SIP/2.0 200 OK\r\nTo: <sip:u@h>;tag=ptag\r\nContent-Type: application/sdp\r\nContent-Length: 10\r\n\r\nv=0\r\nm=audio 4000 RTP/AVP 8\r\na=rtpmap:8 PCMA/8000\r\n".data
    AST_FORMAT_ULAW "fresh".data ⟨[⟨8, 8, none⟩], 1, 8, 4000⟩
    (by decide) (by decide) (by decide) (by decide)).2 (by decide)]
  decide

/-- An alphanumeric string contains no CR. -/
lemma simpleStr_noCR {s : Str} (hs : simpleStr s = true) : ∀ c ∈ s, c ≠ '\r' :=
  fun _ hc => (alnumB_ne_delims (simpleStr_mem hs hc)).1

/-- An alphanumeric string contains no colon. -/
lemma simpleStr_noColon {s : Str} (hs : simpleStr s = true) : ∀ c ∈ s, c ≠ ':' :=
  fun _ hc => (alnumB_ne_delims (simpleStr_mem hs hc)).2.2.1

/-- A nonempty alphanumeric string ends in a non-whitespace character. -/
lemma simpleStr_endsNS (s : Str) (hs : simpleStr s = true) (hne : s ≠ []) :
    ∃ Y cl, s = Y ++ [cl] ∧ cIsSpace cl = false := by
  rcases List.eq_nil_or_concat s with rfl | ⟨Y, cl, rfl⟩
  · exact absurd rfl hne
  · exact ⟨Y, cl, by simp [List.concat_eq_append],
      alnumB_not_space (simpleStr_mem hs (by simp [List.concat_eq_append]))⟩

/-- `c_trim` is the identity on a nonempty alphanumeric string. -/
lemma c_trim_alnum (s : Str) (hs : simpleStr s = true) (hne : s ≠ []) :
    c_trim s = s := by
  obtain ⟨c0, t, rfl⟩ : ∃ c0 t, s = c0 :: t := by
    cases s with
    | nil => exact absurd rfl hne
    | cons c0 t => exact ⟨c0, t, rfl⟩
  have hc0 : cIsSpace c0 = false := alnumB_not_space (simpleStr_mem hs (by simp))
  obtain ⟨Y, cl, hY, hcl⟩ := simpleStr_endsNS (c0 :: t) hs hne
  have hdrop : (c0 :: t).dropWhile cIsSpace = c0 :: t := by
    rw [List.dropWhile_cons, hc0]; simp
  have htake : (c0 :: t).takeWhile cIsSpace = [] := by
    rw [List.takeWhile_cons, hc0]; simp
  have hrev : ((c0 :: t).reverse.dropWhile cIsSpace).reverse = c0 :: t := by
    rw [hY, List.reverse_append]
    simp only [List.reverse_cons, List.reverse_nil, List.nil_append, List.singleton_append,
      List.dropWhile_cons, hcl]
    simp
  rw [c_trim, hdrop]
  rw [if_neg (by simp), htake, hrev]
  simp

/-- Prefixing distributes over the folded rendering. -/
lemma foldedVal_pre (X a : Str) (segs : List Str) :
    X ++ foldedVal a segs = foldedVal (X ++ a) segs := by
  simp [foldedVal]

/-- Prefixing distributes over the unfolded rendering. -/
lemma unfoldedVal_pre (X a : Str) (segs : List Str) :
    X ++ unfoldedVal a segs = unfoldedVal (X ++ a) segs := by
  simp [unfoldedVal]

/-- Head character of a folded value. -/
lemma foldedVal_cons (c : Char) (t : Str) (segs : List Str) :
    foldedVal (c :: t) segs = c :: foldedVal t segs := by
  simp [foldedVal]

/-- Head character of an unfolded value. -/
lemma unfoldedVal_cons (c : Char) (t : Str) (segs : List Str) :
    unfoldedVal (c :: t) segs = c :: unfoldedVal t segs := by
  simp [unfoldedVal]

/-- The folded continuation block is at least one character per segment. -/
lemma foldedJoin_length : ∀ segs : List Str,
    segs.length ≤ ((segs.map (fun b => '\r' :: '\n' :: ' ' :: b)).flatten).length := by
  intro segs
  induction segs with
  | nil => simp
  | cons b s ih =>
    simp only [List.map_cons, List.flatten_cons, List.length_append, List.length_cons]
    omega

/-- A folded value whose head segment and continuation segments end in
non-whitespace itself ends in non-whitespace. -/
lemma foldedVal_endsNS : ∀ (segs : List Str) (a : Str),
    (∃ Y cl, a = Y ++ [cl] ∧ cIsSpace cl = false) →
    (∀ b ∈ segs, ∃ Y cl, b = Y ++ [cl] ∧ cIsSpace cl = false) →
    ∃ Y cl, foldedVal a segs = Y ++ [cl] ∧ cIsSpace cl = false := by
  intro segs
  induction segs with
  | nil =>
    intro a ha _
    simpa [foldedVal] using ha
  | cons b s ih =>
    intro a _ hb
    have hshift : foldedVal a (b :: s) = foldedVal (a ++ '\r' :: '\n' :: ' ' :: b) s := by
      simp [foldedVal]
    rw [hshift]
    apply ih
    · obtain ⟨Yb, cb, hbe, hcb⟩ := hb b (by simp)
      exact ⟨a ++ '\r' :: '\n' :: ' ' :: Yb, cb, by simp [hbe], hcb⟩
    · intro b' hb'
      exact hb b' (by simp [hb'])

/-- An unfolded value whose head segment and continuation segments end in
non-whitespace itself ends in non-whitespace. -/
lemma unfoldedVal_endsNS : ∀ (segs : List Str) (a : Str),
    (∃ Y cl, a = Y ++ [cl] ∧ cIsSpace cl = false) →
    (∀ b ∈ segs, ∃ Y cl, b = Y ++ [cl] ∧ cIsSpace cl = false) →
    ∃ Y cl, unfoldedVal a segs = Y ++ [cl] ∧ cIsSpace cl = false := by
  intro segs
  induction segs with
  | nil =>
    intro a ha _
    simpa [unfoldedVal] using ha
  | cons b s ih =>
    intro a _ hb
    have hshift : unfoldedVal a (b :: s) = unfoldedVal (a ++ ' ' :: b) s := by
      simp [unfoldedVal]
    rw [hshift]
    apply ih
    · obtain ⟨Yb, cb, hbe, hcb⟩ := hb b (by simp)
      exact ⟨a ++ ' ' :: Yb, cb, by simp [hbe], hcb⟩
    · intro b' hb'
      exact hb b' (by simp [hb'])

/-- An unfolded value over alphanumeric segments contains no CR. -/
lemma unfoldedVal_noCR (a : Str) (segs : List Str) (ha : simpleStr a = true)
    (hb : ∀ b ∈ segs, simpleStr b = true) : ∀ c ∈ unfoldedVal a segs, c ≠ '\r' := by
  intro c hc
  rw [unfoldedVal, List.mem_append] at hc
  rcases hc with hc | hc
  · exact simpleStr_noCR ha c hc
  · rw [List.mem_flatten] at hc
    obtain ⟨l, hl, hcl⟩ := hc
    rw [List.mem_map] at hl
    obtain ⟨b, hbseg, rfl⟩ := hl
    rcases List.mem_cons.mp hcl with rfl | hcb
    · decide
    · exact simpleStr_noCR (hb b hbseg) c hcb

/-- `stripCRLF` distributes over append. -/
lemma stripCRLF_append (s t : Str) :
    stripCRLF (s ++ t) = stripCRLF s ++ stripCRLF t := by
  simp [stripCRLF, List.filter_append]

/-- `stripCRLF` is the identity on alphanumeric strings. -/
lemma stripCRLF_alnum (s : Str) (hs : simpleStr s = true) : stripCRLF s = s := by
  rw [stripCRLF]
  apply List.filter_eq_self.mpr
  intro c hc
  have h := simpleStr_mem hs hc
  simp only [decide_eq_true_eq]
  rintro (rfl | rfl) <;> exact absurd h (by decide)

/-- Deleting CR and LF from the folded continuation block leaves exactly the
single-line continuation block. -/
lemma stripCRLF_join (segs : List Str) (hb : ∀ b ∈ segs, simpleStr b = true) :
    stripCRLF ((segs.map (fun b => '\r' :: '\n' :: ' ' :: b)).flatten) =
      (segs.map (fun b => ' ' :: b)).flatten := by
  induction segs with
  | nil => rfl
  | cons b s ih =>
    simp only [List.map_cons, List.flatten_cons]
    rw [stripCRLF_append]
    rw [show stripCRLF ('\r' :: '\n' :: ' ' :: b) = ' ' :: stripCRLF b from by
      simp [stripCRLF]]
    rw [stripCRLF_alnum b (hb b (by simp)), ih (fun b' h => hb b' (by simp [h]))]

/-- Deleting CR and LF from a folded value yields the unfolded value. -/
lemma stripCRLF_foldedVal (a : Str) (segs : List Str) (ha : simpleStr a = true)
    (hb : ∀ b ∈ segs, simpleStr b = true) :
    stripCRLF (foldedVal a segs) = unfoldedVal a segs := by
  rw [foldedVal, unfoldedVal, stripCRLF_append, stripCRLF_alnum a ha, stripCRLF_join segs hb]

/-- One accepted header line, stated from the scan result directly (so it
also covers folded lines, whose span contains CRs). -/
lemma parse_headersLoop_stepScan (line rest : Str) (rem : Nat) (acc : List Hdr)
    (hscan : scanLine (line ++ '\r' :: '\n' :: rest) = some (line, rest))
    (hlen : line.length < MAX_HEADER_LINE) (hne : line ≠ [])
    (n v : Str) (hsplit : splitColon line = some (n, v)) :
    parse_headersLoop (line ++ '\r' :: '\n' :: rest) (rem + 1) acc =
      parse_headersLoop rest rem ((c_trim n, c_trim v) :: acc) := by
  obtain ⟨c0, l', rfl⟩ : ∃ c0 l', line = c0 :: l' := by
    cases line with
    | nil => exact absurd rfl hne
    | cons c0 l' => exact ⟨c0, l', rfl⟩
  rw [show (c0 :: l') ++ '\r' :: '\n' :: rest = c0 :: (l' ++ '\r' :: '\n' :: rest) by simp]
    at hscan ⊢
  simp only [parse_headersLoop, hscan]
  have hlen' : ¬MAX_HEADER_LINE ≤ l'.length + 1 := by simpa using Nat.not_le.mpr hlen
  simp [hlen', hsplit]

/-- Parsing a message with one folded header: the folded span survives as a
single header whose value keeps the embedded CR LF pairs. -/
lemma parse_headers_folded (nm a : Str) (segs : List Str)
    (hnm : simpleStr nm = true) (hnmne : nm ≠ [])
    (ha : simpleStr a = true) (hane : a ≠ [])
    (hsegs : ∀ b ∈ segs, simpleStr b = true)
    (hsegsne : ∀ b ∈ segs, b ≠ [])
    (hlenF : (nm ++ ':' :: ' ' :: foldedVal a segs).length < MAX_HEADER_LINE) :
    parse_headers (hdrMsg nm (foldedVal a segs)) =
      some [(nm, ' ' :: foldedVal a segs)] := by
  have h4 : ("\r\n\r\n".data : Str) = ['\r', '\n', '\r', '\n'] := by decide
  have hbuf : hdrMsg nm (foldedVal a segs) =
      (nm ++ ':' :: ' ' :: foldedVal a segs) ++ '\r' :: '\n' :: ['\r', '\n'] := by
    simp [hdrMsg, h4]
  have hline : nm ++ ':' :: ' ' :: foldedVal a segs =
      foldedVal (nm ++ ':' :: ' ' :: a) segs := by
    simp [foldedVal]
  have hAnoCR : ∀ c ∈ (nm ++ ':' :: ' ' :: a : Str), c ≠ '\r' := by
    intro c hc
    rw [List.mem_append] at hc
    rcases hc with hc | hc
    · exact simpleStr_noCR hnm c hc
    · rcases List.mem_cons.mp hc with rfl | hc
      · decide
      · rcases List.mem_cons.mp hc with rfl | hc
        · decide
        · exact simpleStr_noCR ha c hc
  have hsegsnoCR : ∀ b ∈ segs, ∀ c ∈ b, c ≠ '\r' := fun b hb => simpleStr_noCR (hsegs b hb)
  have hfuel : segs.length + 1 ≤
      (foldedVal (nm ++ ':' :: ' ' :: a) segs ++ '\r' :: '\n' :: ['\r', '\n']).length + 1 := by
    rw [foldedVal]
    simp only [List.length_append, List.length_cons]
    have := foldedJoin_length segs
    omega
  have hscan : scanLine (foldedVal (nm ++ ':' :: ' ' :: a) segs ++ '\r' :: '\n' :: ['\r', '\n']) =
      some (foldedVal (nm ++ ':' :: ' ' :: a) segs, ['\r', '\n']) := by
    rw [scanLine]
    exact scanLineF_folded segs _ _ _ hAnoCR hsegsnoCR
      (Or.inr ⟨'\r', ['\n'], rfl, by decide⟩) hfuel
  have hsplit : splitColon (nm ++ ':' :: ' ' :: foldedVal a segs) =
      some (nm, ' ' :: foldedVal a segs) :=
    splitColon_clean nm _ (simpleStr_noColon hnm)
  have htrimn : c_trim nm = nm := c_trim_alnum nm hnm hnmne
  obtain ⟨Y, cl, hY, hcl⟩ := foldedVal_endsNS segs a (simpleStr_endsNS a ha hane)
    (fun b hb => simpleStr_endsNS b (hsegs b hb) (hsegsne b hb))
  obtain ⟨c0, t0, ha0⟩ : ∃ c0 t0, a = c0 :: t0 := by
    cases a with
    | nil => exact absurd rfl hane
    | cons c0 t0 => exact ⟨c0, t0, rfl⟩
  have hc0 : cIsSpace c0 = false := alnumB_not_space (simpleStr_mem ha (by rw [ha0]; simp))
  have hheadF : foldedVal a segs = c0 :: foldedVal t0 segs := by rw [ha0, foldedVal_cons]
  have htrimv : c_trim (' ' :: foldedVal a segs) = ' ' :: foldedVal a segs :=
    c_trim_space_cons (foldedVal a segs) c0 (foldedVal t0 segs) Y cl hheadF hc0 hY hcl
  rw [parse_headers, hbuf, hline, show (MAX_HEADERS : Nat) = 99 + 1 from rfl]
  rw [parse_headersLoop_stepScan _ _ 99 [] hscan
    (by rw [← hline]; exact hlenF) (by rw [← hline]; simp)
    nm (' ' :: foldedVal a segs) (by rw [← hline]; exact hsplit)]
  rw [parse_headersLoop_final, htrimn, htrimv]
  rfl

/-- Parsing the equivalent message with the value unfolded onto one line. -/
lemma parse_headers_unfolded (nm a : Str) (segs : List Str)
    (hnm : simpleStr nm = true) (hnmne : nm ≠ [])
    (ha : simpleStr a = true) (hane : a ≠ [])
    (hsegs : ∀ b ∈ segs, simpleStr b = true)
    (hsegsne : ∀ b ∈ segs, b ≠ [])
    (hlenU : (nm ++ ':' :: ' ' :: unfoldedVal a segs).length < MAX_HEADER_LINE) :
    parse_headers (hdrMsg nm (unfoldedVal a segs)) =
      some [(nm, ' ' :: unfoldedVal a segs)] := by
  have h4 : ("\r\n\r\n".data : Str) = ['\r', '\n', '\r', '\n'] := by decide
  have hbuf : hdrMsg nm (unfoldedVal a segs) =
      (nm ++ ':' :: ' ' :: unfoldedVal a segs) ++ '\r' :: '\n' :: ['\r', '\n'] := by
    simp [hdrMsg, h4]
  have hlnoCR : ∀ c ∈ (nm ++ ':' :: ' ' :: unfoldedVal a segs : Str), c ≠ '\r' := by
    intro c hc
    rw [List.mem_append] at hc
    rcases hc with hc | hc
    · exact simpleStr_noCR hnm c hc
    · rcases List.mem_cons.mp hc with rfl | hc
      · decide
      · rcases List.mem_cons.mp hc with rfl | hc
        · decide
        · exact unfoldedVal_noCR a segs ha hsegs c hc
  have hsplit : splitColon (nm ++ ':' :: ' ' :: unfoldedVal a segs) =
      some (nm, ' ' :: unfoldedVal a segs) :=
    splitColon_clean nm _ (simpleStr_noColon hnm)
  have htrimn : c_trim nm = nm := c_trim_alnum nm hnm hnmne
  obtain ⟨Y, cl, hY, hcl⟩ := unfoldedVal_endsNS segs a (simpleStr_endsNS a ha hane)
    (fun b hb => simpleStr_endsNS b (hsegs b hb) (hsegsne b hb))
  obtain ⟨c0, t0, ha0⟩ : ∃ c0 t0, a = c0 :: t0 := by
    cases a with
    | nil => exact absurd rfl hane
    | cons c0 t0 => exact ⟨c0, t0, rfl⟩
  have hc0 : cIsSpace c0 = false := alnumB_not_space (simpleStr_mem ha (by rw [ha0]; simp))
  have hheadU : unfoldedVal a segs = c0 :: unfoldedVal t0 segs := by
    rw [ha0, unfoldedVal_cons]
  have htrimv : c_trim (' ' :: unfoldedVal a segs) = ' ' :: unfoldedVal a segs :=
    c_trim_space_cons (unfoldedVal a segs) c0 (unfoldedVal t0 segs) Y cl hheadU hc0 hY hcl
  rw [parse_headers, hbuf, show (MAX_HEADERS : Nat) = 99 + 1 from rfl]
  rw [parse_headersLoop_step _ _ 99 [] hlnoCR
    (Or.inr ⟨'\r', ['\n'], rfl, by decide⟩) hlenU (by simp)
    nm (' ' :: unfoldedVal a segs) hsplit]
  rw [parse_headersLoop_final, htrimn, htrimv]
  rfl

/-- C6 (amended): a header folded across `1 + segs.length` physical lines
parses to a *single* header carrying the same field name as the unfolded
equivalent, but its stored value is the raw folded span: the embedded CR LF
pairs are retained (the continuation whitespace is also kept, as is the
leading space, since the in-place trim only removes trailing whitespace).
Deleting the CR and LF characters from the folded value recovers exactly
the unfolded value. -/
theorem C6_amended_folded_header_value_retains_crlf (nm a : Str) (segs : List Str)
    (hnm : simpleStr nm = true) (hnmne : nm ≠ [])
    (ha : simpleStr a = true) (hane : a ≠ [])
    (hsegs : ∀ b ∈ segs, simpleStr b = true)
    (hsegsne : ∀ b ∈ segs, b ≠ [])
    (hlenF : (nm ++ ':' :: ' ' :: foldedVal a segs).length < MAX_HEADER_LINE)
    (hlenU : (nm ++ ':' :: ' ' :: unfoldedVal a segs).length < MAX_HEADER_LINE) :
    parse_headers (hdrMsg nm (foldedVal a segs)) = some [(nm, ' ' :: foldedVal a segs)] ∧
    parse_headers (hdrMsg nm (unfoldedVal a segs)) = some [(nm, ' ' :: unfoldedVal a segs)] ∧
    stripCRLF (' ' :: foldedVal a segs) = ' ' :: unfoldedVal a segs := by
  refine ⟨parse_headers_folded nm a segs hnm hnmne ha hane hsegs hsegsne hlenF,
    parse_headers_unfolded nm a segs hnm hnmne ha hane hsegs hsegsne hlenU, ?_⟩
  rw [show (' ' :: foldedVal a segs : Str) = [' '] ++ foldedVal a segs from rfl,
    stripCRLF_append, stripCRLF_foldedVal a segs ha hsegs]
  rfl

/-- Witness for C6: the value `first` continued by the line `second`. -/
theorem C6_amended_folded_header_value_retains_crlf_witness :
    parse_headers (hdrMsg "Via".data (foldedVal "first".data ["second".data])) =
      some [("Via".data, ' ' :: foldedVal "first".data ["second".data])] ∧
    parse_headers (hdrMsg "Via".data (unfoldedVal "first".data ["second".data])) =
      some [("Via".data, ' ' :: unfoldedVal "first".data ["second".data])] ∧
    stripCRLF (' ' :: foldedVal "first".data ["second".data]) =
      ' ' :: unfoldedVal "first".data ["second".data] :=
  C6_amended_folded_header_value_retains_crlf "Via".data "first".data ["second".data]
    (by decide) (by decide) (by decide) (by decide) (by decide) (by decide)
    (by decide) (by decide)
